import Mathlib

/-!
# Superfile: panel lifecycle, layout and focus/modal state machine

A shallow embedding of `src/internal/handle_panel_navigation.go` and
`src/internal/handle_modal.go`.

Conventions of the embedding

* Go `int` values (widths, indices, counts) are mathematical integers `Int`;
  `/` on Go integers truncates toward zero and is `Int.tdiv`. All quantities
  are terminal cell counts and slice lengths, so no wrap-around is modelled.
* A Go run-time panic (index out of range, slice bounds out of range, integer
  division by zero) is the result `none`: a handler that can panic returns an
  `Option`.
* The package-level variables `Config` and `newFilePanelDir` are carried as
  two extra fields of `model`.
* `textinput.Model` is the text-input widget of the external `bubbles`
  library; only its value, its focus flag and its width are modelled.
* Calls to the operating system (file creation, process execution, path
  resolution) are answered by an explicit outcome record passed as argument.
-/

namespace Superfile

/-! ## Data model -/

/-- The focus type of one file panel (`filePanelFocusType`). -/
inductive filePanelFocusType where
  | noneFocus
  | secondFocus
  | focus
  deriving DecidableEq, Repr

/-- The region owning the keyboard focus (`focusPanelType`). -/
inductive focusPanelType where
  | nonePanelFocus
  | processBarFocus
  | sidebarFocus
  | metadataFocus
  deriving DecidableEq, Repr

/-- The mode of one file panel (`panelMode`). -/
inductive panelModeType where
  | selectMode
  | browserMode
  deriving DecidableEq, Repr

/-- The text-input widget `textinput.Model` of the `bubbles` library: the
typed value, the focus flag and the display width. -/
structure textinputModel where
  value : String
  focus : Bool
  Width : Int
  deriving DecidableEq, Repr

/-- The method `textinput.Model.Value`. -/
def textinputModel.Value (t : textinputModel) : String := t.value

/-- The method `textinput.Model.SetValue`. -/
def textinputModel.SetValue (t : textinputModel) (s : String) : textinputModel :=
  { t with value := s }

/-- The method `textinput.Model.Blur`. -/
def textinputModel.Blur (t : textinputModel) : textinputModel :=
  { t with focus := false }

/-- The method `textinput.Model.Focus`. -/
def textinputModel.Focus (t : textinputModel) : textinputModel :=
  { t with focus := true }

/-- The committed part of the sort options (`sortOptionsModelData`). -/
structure sortOptionsModelData where
  options : List String
  selected : Int
  reversed : Bool
  deriving DecidableEq, Repr

/-- The sort-options menu of one panel (`sortOptionsModel`). -/
structure sortOptionsModel where
  width : Int
  height : Int
  «open» : Bool
  cursor : Int
  data : sortOptionsModelData
  deriving DecidableEq, Repr

/-- One entry of a directory listing (`element`). -/
structure element where
  name : String
  location : String
  directory : Bool
  deriving DecidableEq, Repr

/-- The remembered cursor of one visited directory (`directoryRecord`). -/
structure directoryRecord where
  directoryCursor : Int
  directoryRender : Int
  deriving DecidableEq, Repr

/-- One file panel (`filePanel`). The Go map `directoryRecord` is an
association list. -/
structure filePanel where
  cursor : Int
  location : String
  sortOptions : sortOptionsModel
  panelMode : panelModeType
  focusType : filePanelFocusType
  element : List element
  directoryRecord : List (String × directoryRecord)
  rename : textinputModel
  «renaming» : Bool
  searchBar : textinputModel
  deriving DecidableEq, Repr

/-- The preview pane (`filePreviewPanel`). -/
structure filePreviewPanel where
  «open» : Bool
  width : Int
  deriving DecidableEq, Repr

/-- The set of file panels with its geometry (`fileModel`). -/
structure fileModel where
  filePanels : List filePanel
  width : Int
  «renaming» : Bool
  maxFilePanel : Int
  filePreview : filePreviewPanel
  deriving DecidableEq, Repr

/-- The create-item prompt (`typingModal`). -/
structure typingModal where
  location : String
  «open» : Bool
  textInput : textinputModel
  deriving DecidableEq, Repr

/-- The warning dialog (`warnModal`). -/
structure warnModal where
  «open» : Bool
  deriving DecidableEq, Repr

/-- One row of the help menu (`helpMenuModalData`). -/
structure helpMenuModalData where
  subTitle : String
  description : String
  deriving DecidableEq, Repr

/-- The help menu (`helpMenuModal`). -/
structure helpMenuModal where
  height : Int
  «open» : Bool
  data : List helpMenuModalData
  cursor : Int
  renderIndex : Int
  deriving DecidableEq, Repr

/-- The command line (`commandLineModal`). -/
structure commandLineModal where
  input : textinputModel
  deriving DecidableEq, Repr

/-- The two configuration values read by the handlers (`Config`). -/
structure ConfigType where
  SidebarWidth : Int
  FilePreviewWidth : Int
  deriving DecidableEq, Repr

/-- The application state (`model`), followed by the two package-level
variables `Config` and `newFilePanelDir` the handlers read and write. -/
structure model where
  fileModel : fileModel
  filePanelFocusIndex : Int
  focusPanel : focusPanelType
  fullWidth : Int
  footerHeight : Int
  toggleFooter : Bool
  firstTextInput : Bool
  typingModal : typingModal
  warnModal : warnModal
  helpMenu : helpMenuModal
  commandLine : commandLineModal
  Config : ConfigType
  newFilePanelDir : String
  deriving DecidableEq, Repr

/-! ## Go primitives -/

/-- Go integer division `a / b`: truncation toward zero, a panic when the
divisor is zero. -/
def goDiv (a b : Int) : Option Int :=
  if b = 0 then none else some (Int.tdiv a b)

/-- Go slice indexing `ps[i]`: a panic outside `0 ≤ i < len(ps)`. -/
def index {α : Type} (ps : List α) (i : Int) : Option α :=
  if 0 ≤ i then ps.get? i.toNat else none

/-- The panel list `ps` with the focus type of its `k`-th panel set to `t`. -/
def setFocusTypeAt : List filePanel → Nat → filePanelFocusType → List filePanel
  | [], _, _ => []
  | p :: ps, 0, t => { p with focusType := t } :: ps
  | p :: ps, k + 1, t => p :: setFocusTypeAt ps k t

/-- Go element assignment `ps[i].focusType = t`: a panic outside
`0 ≤ i < len(ps)`. -/
def setFocusType (ps : List filePanel) (i : Int) (t : filePanelFocusType) :
    Option (List filePanel) :=
  if 0 ≤ i ∧ i < (ps.length : Int) then some (setFocusTypeAt ps i.toNat t) else none

/-- The loop `for i := range ps { ps[i].searchBar.Width = w }`. -/
def setSearchBarWidth (ps : List filePanel) (w : Int) : List filePanel :=
  ps.map (fun p => { p with searchBar := { p.searchBar with Width := w } })

/-- Go re-slicing `append(ps[:i], ps[i+1:]...)`: a panic unless
`0 ≤ i` and `i + 1 ≤ len(ps)`. -/
def removeAt (ps : List filePanel) (i : Int) : Option (List filePanel) :=
  if 0 ≤ i ∧ i + 1 ≤ (ps.length : Int) then some (ps.eraseIdx i.toNat) else none

/-- Modelled from the spec: the helper `returnFocusType` is not among the
source files; the focus type implied by the active focus target is primary
when a panel is meant to hold the focus and secondary otherwise. -/
def returnFocusType (focusPanel : focusPanelType) : filePanelFocusType :=
  if focusPanel = focusPanelType.nonePanelFocus then filePanelFocusType.focus
  else filePanelFocusType.secondFocus

/-- Modelled from the spec: the helper `generateSearchBar` is not among the
source files; a panel has a search-bar input widget, and the fresh one is
taken empty and not focused (its width is overwritten by the caller). -/
def generateSearchBar : textinputModel :=
  { value := "", focus := false, Width := 0 }

/-! ## Panel navigation (`handle_panel_navigation.go`) -/

/-- The assignment to `m.fileModel.filePreview.width` shared by the three
geometry handlers, for `n` panels: the stored width is kept when the preview
is closed. -/
def previewWidthUpdate (m : model) (n : Int) : Option Int :=
  if m.fileModel.filePreview.open then
    if m.Config.FilePreviewWidth = 0 then
      goDiv (m.fullWidth - m.Config.SidebarWidth - (4 + n * 2)) (n + 1)
    else
      goDiv (m.fullWidth - m.Config.SidebarWidth) m.Config.FilePreviewWidth
  else
    some m.fileModel.filePreview.width

/-- The composite literal appended by `createNewFilePanel`: a panel at
`newFilePanelDir` with the sort options `so` of the focused panel; the fields
the literal leaves out have their zero value. -/
def newPanel (m : model) (so : sortOptionsModel) : filePanel :=
  { cursor := 0
    location := m.newFilePanelDir
    sortOptions := so
    panelMode := panelModeType.browserMode
    focusType := filePanelFocusType.secondFocus
    element := []
    directoryRecord := []
    rename := { value := "", focus := false, Width := 0 }
    «renaming» := false
    searchBar := generateSearchBar }

/-- The handler `createNewFilePanel`. -/
def createNewFilePanel (m : model) : Option model :=
  if (m.fileModel.filePanels.length : Int) = m.fileModel.maxFilePanel then
    some m
  else do
    let cur ← index m.fileModel.filePanels m.filePanelFocusIndex
    let panels1 := m.fileModel.filePanels ++ [newPanel m cur.sortOptions]
    let n : Int := panels1.length
    let pw ← previewWidthUpdate m n
    let panels2 ← setFocusType panels1 m.filePanelFocusIndex filePanelFocusType.noneFocus
    let panels3 ← setFocusType panels2 (m.filePanelFocusIndex + 1) (returnFocusType m.focusPanel)
    let width ← goDiv (m.fullWidth - m.Config.SidebarWidth - pw - (4 + (n - 1) * 2)) n
    let maxFilePanel ← goDiv (m.fullWidth - m.Config.SidebarWidth - pw) 20
    some { m with
      fileModel := { m.fileModel with
        filePanels := setSearchBarWidth panels3 (width - 4)
        width := width
        maxFilePanel := maxFilePanel
        filePreview := { m.fileModel.filePreview with width := pw } }
      filePanelFocusIndex := m.filePanelFocusIndex + 1 }

/-- The handler `closeFilePanel`. -/
def closeFilePanel (m : model) : Option model :=
  if m.fileModel.filePanels.length = 1 then
    some m
  else do
    let panels1 ← removeAt m.fileModel.filePanels m.filePanelFocusIndex
    let n : Int := panels1.length
    let pw ← previewWidthUpdate m n
    let idx := if m.filePanelFocusIndex ≠ 0 then m.filePanelFocusIndex - 1 else m.filePanelFocusIndex
    let width ← goDiv (m.fullWidth - m.Config.SidebarWidth - pw - (4 + (n - 1) * 2)) n
    let panels2 ← setFocusType panels1 idx (returnFocusType m.focusPanel)
    let maxFilePanel ← goDiv (m.fullWidth - m.Config.SidebarWidth - pw) 20
    some { m with
      fileModel := { m.fileModel with
        filePanels := setSearchBarWidth panels2 (width - 4)
        width := width
        maxFilePanel := maxFilePanel
        filePreview := { m.fileModel.filePreview with width := pw } }
      filePanelFocusIndex := idx }

/-- The handler `toggleFilePreviewPanel`. -/
def toggleFilePreviewPanel (m : model) : Option model := do
  let m1 : model := { m with
    fileModel := { m.fileModel with
      filePreview := { «open» := !m.fileModel.filePreview.open, width := 0 } } }
  let n : Int := m1.fileModel.filePanels.length
  let pw ← previewWidthUpdate m1 n
  let width ← goDiv (m1.fullWidth - m1.Config.SidebarWidth - pw - (4 + (n - 1) * 2)) n
  let maxFilePanel ← goDiv (m1.fullWidth - m1.Config.SidebarWidth - pw) 20
  some { m1 with
    fileModel := { m1.fileModel with
      filePanels := setSearchBarWidth m1.fileModel.filePanels (width - 4)
      width := width
      maxFilePanel := maxFilePanel
      filePreview := { m1.fileModel.filePreview with width := pw } } }

/-- The handler `nextFilePanel`. -/
def nextFilePanel (m : model) : Option model := do
  let panels1 ← setFocusType m.fileModel.filePanels m.filePanelFocusIndex filePanelFocusType.noneFocus
  let idx : Int :=
    if m.filePanelFocusIndex = (m.fileModel.filePanels.length : Int) - 1 then 0
    else m.filePanelFocusIndex + 1
  let panels2 ← setFocusType panels1 idx (returnFocusType m.focusPanel)
  let p ← index panels2 idx
  some { m with
    fileModel := { m.fileModel with filePanels := panels2 }
    filePanelFocusIndex := idx
    newFilePanelDir := p.location }

/-- The handler `previousFilePanel`. -/
def previousFilePanel (m : model) : Option model := do
  let panels1 ← setFocusType m.fileModel.filePanels m.filePanelFocusIndex filePanelFocusType.noneFocus
  let idx : Int :=
    if m.filePanelFocusIndex = 0 then (m.fileModel.filePanels.length : Int) - 1
    else m.filePanelFocusIndex - 1
  let panels2 ← setFocusType panels1 idx (returnFocusType m.focusPanel)
  let p ← index panels2 idx
  some { m with
    fileModel := { m.fileModel with filePanels := panels2 }
    filePanelFocusIndex := idx
    newFilePanelDir := p.location }

/-- The handler `focusOnSideBar`. -/
def focusOnSideBar (m : model) : Option model :=
  if m.Config.SidebarWidth = 0 then
    some m
  else if m.focusPanel = focusPanelType.sidebarFocus then do
    let panels ← setFocusType m.fileModel.filePanels m.filePanelFocusIndex filePanelFocusType.focus
    some { m with
      focusPanel := focusPanelType.nonePanelFocus
      fileModel := { m.fileModel with filePanels := panels } }
  else do
    let panels ← setFocusType m.fileModel.filePanels m.filePanelFocusIndex filePanelFocusType.secondFocus
    some { m with
      focusPanel := focusPanelType.sidebarFocus
      fileModel := { m.fileModel with filePanels := panels } }

/-- The handler `focusOnProcessBar`. -/
def focusOnProcessBar (m : model) : Option model :=
  if !m.toggleFooter then
    some m
  else if m.focusPanel = focusPanelType.processBarFocus then do
    let panels ← setFocusType m.fileModel.filePanels m.filePanelFocusIndex filePanelFocusType.focus
    some { m with
      focusPanel := focusPanelType.nonePanelFocus
      fileModel := { m.fileModel with filePanels := panels } }
  else do
    let panels ← setFocusType m.fileModel.filePanels m.filePanelFocusIndex filePanelFocusType.secondFocus
    some { m with
      focusPanel := focusPanelType.processBarFocus
      fileModel := { m.fileModel with filePanels := panels } }

/-- The handler `focusOnMetadata`. -/
def focusOnMetadata (m : model) : Option model :=
  if !m.toggleFooter then
    some m
  else if m.focusPanel = focusPanelType.metadataFocus then do
    let panels ← setFocusType m.fileModel.filePanels m.filePanelFocusIndex filePanelFocusType.focus
    some { m with
      focusPanel := focusPanelType.nonePanelFocus
      fileModel := { m.fileModel with filePanels := panels } }
  else do
    let panels ← setFocusType m.fileModel.filePanels m.filePanelFocusIndex filePanelFocusType.secondFocus
    some { m with
      focusPanel := focusPanelType.metadataFocus
      fileModel := { m.fileModel with filePanels := panels } }

/-! ## Modals (`handle_modal.go`) -/

/-- Go `strings.HasSuffix`. -/
def HasSuffix (s suffix : String) : Bool :=
  suffix.data.isSuffixOf s.data

/-- Go `strings.CutPrefix`: the rest of `s` and `true` when `s` starts with
`pre`, otherwise `s` and `false`. -/
def CutPrefix (s pre : String) : String × Bool :=
  if pre.data.isPrefixOf s.data then (String.mk (s.data.drop pre.data.length), true)
  else (s, false)

/-- The calls `createItem` makes outside the model. -/
inductive fsCall where
  | MkdirAll (path : String)
  | Create (path : String)
  | Close (path : String)
  deriving DecidableEq, Repr

/-- The path functions and the filesystem answers `createItem` depends on:
`filepath.Separator`, `filepath.Join`, `filepath.Dir`, the path returned by
`renameIfDuplicate`, and whether `os.MkdirAll` and `os.Create` succeed on a
path. -/
structure createItemEnv where
  Separator : String
  Join : String → String → String
  Dir : String → String
  renameIfDuplicate : String → String
  MkdirAll : String → Bool
  Create : String → Bool

/-- The deferred function of `createItem`. -/
def resetTypingModal (m : model) : model :=
  { m with
    typingModal := { m.typingModal with
      «open» := false
      textInput := m.typingModal.textInput.Blur } }

/-- The handler `createItem`: the state after the deferred reset, and the
filesystem calls made, in order. -/
def createItem (env : createItemEnv) (m : model) : model × List fsCall :=
  let path := env.Join m.typingModal.location m.typingModal.textInput.Value
  if !HasSuffix m.typingModal.textInput.Value env.Separator then
    let path := env.renameIfDuplicate path
    if !env.MkdirAll (env.Dir path) then
      (resetTypingModal m, [fsCall.MkdirAll (env.Dir path)])
    else if !env.Create path then
      (resetTypingModal m, [fsCall.MkdirAll (env.Dir path), fsCall.Create path])
    else
      (resetTypingModal m,
        [fsCall.MkdirAll (env.Dir path), fsCall.Create path, fsCall.Close path])
  else
    if !env.MkdirAll path then
      (resetTypingModal m, [fsCall.MkdirAll path])
    else
      (resetTypingModal m, [fsCall.MkdirAll path])

/-- Modelled from the spec: the helper `generateCommandLineInputBox` is not
among the source files; the command line is a single-line input, and the fresh
one is taken empty and not focused (its width is overwritten by the caller). -/
def generateCommandLineInputBox : textinputModel :=
  { value := "", focus := false, Width := 0 }

/-- The handler `openCommandLine`. -/
def openCommandLine (m : model) : model :=
  { m with
    firstTextInput := true
    footerHeight := m.footerHeight - 1
    commandLine :=
      { input := ({ generateCommandLineInputBox with Width := m.fullWidth - 3 }).Focus } }

/-- The handler `closeCommandLine`. -/
def closeCommandLine (m : model) : model :=
  { m with
    footerHeight := m.footerHeight + 1
    commandLine := { input := (m.commandLine.input.SetValue "").Blur } }

/-- The answer of `os.Stat`. -/
inductive statResult where
  | notExist
  | failed
  | found (isDir : Bool)
  deriving DecidableEq, Repr

/-- The platform and the answers of the external steps of `enterCommandLine`:
`runtime.GOOS`; the combined output of running a program with arguments in a
directory, with `true` when it ran without error; `strings.TrimSpace`;
`filepath.Abs` (`none` on error); `os.Stat`; `filepath.Dir`. -/
structure commandLineEnv where
  GOOS : String
  CombinedOutput : String → List String → String → String × Bool
  TrimSpace : String → String
  Abs : String → Option String
  Stat : String → statResult
  Dir : String → String

/-- The directory of the panel with the primary focus type, as computed by the
loop at the head of `enterCommandLine` (the last such panel wins). -/
def focusPanelDir (ps : List filePanel) : String :=
  ps.foldl (fun dir p => if p.focusType = filePanelFocusType.focus then p.location else dir) ""

/-- The handler `enterCommandLine`: the resulting state together with the
messages printed for the user; `none` is a panic of `createNewFilePanel`. -/
def enterCommandLine (env : commandLineEnv) (m : model) : Option (model × List String) :=
  let dir := focusPanelDir m.fileModel.filePanels
  let cmdLine := m.commandLine.input.Value
  let cut := CutPrefix cmdLine "spf "
  let cmdLine := if cut.2 then "echo " ++ cut.1 else cmdLine
  let out :=
    if env.GOOS = "windows" then env.CombinedOutput "powershell.exe" ["-Command", cmdLine] dir
    else env.CombinedOutput "/bin/sh" ["-c", cmdLine] dir
  if !out.2 then
    some (m, ["command failed (see superfile.log)"])
  else if cut.2 then
    match env.Abs (env.TrimSpace out.1) with
    | none => some (m, ["failed to determin directory"])
    | some outputPath =>
      match env.Stat (outputPath ++ "/") with
      | statResult.notExist => some (m, ["This path does not exist"])
      | statResult.failed => some (m, ["failed to determin directory"])
      | statResult.found isDir =>
        let outputPath := if !isDir then env.Dir outputPath else outputPath
        (createNewFilePanel { m with newFilePanelDir := outputPath }).map
          (fun m1 => (closeCommandLine m1, []))
  else
    some (closeCommandLine m, [])

/-! ## Well-formed states -/

/-- The panel-set invariant of the data model: `filePanelFocusIndex` is a
valid index into the panel list. -/
def validFocusIndex (m : model) : Prop :=
  0 ≤ m.filePanelFocusIndex ∧ m.filePanelFocusIndex < (m.fileModel.filePanels.length : Int)

instance (m : model) : Decidable (validFocusIndex m) := by
  unfold validFocusIndex; infer_instance

/-! ## Sequences of lifecycle operations -/

/-- The three handlers that change the panel count or the preview pane. -/
inductive lifecycleOp where
  | create
  | close
  | togglePreview
  deriving DecidableEq, Repr

/-- The handler named by a lifecycle operation. -/
def lifecycleOp.run : lifecycleOp → model → Option model
  | lifecycleOp.create => createNewFilePanel
  | lifecycleOp.close => closeFilePanel
  | lifecycleOp.togglePreview => toggleFilePreviewPanel

/-- Runs the handlers of a finite sequence of lifecycle operations one after
the other; a panic of one handler ends the run. -/
def runOps : List lifecycleOp → model → Option model
  | [], m => some m
  | op :: ops, m => (op.run m).bind (runOps ops)

/-- Applies a handler `n` times in a row; a panic ends the run. -/
def iterateHandler (f : model → Option model) : Nat → model → Option model
  | 0, m => some m
  | n + 1, m => (f m).bind (iterateHandler f n)

/-! ## Concrete states -/

/-- A panel at `location` with focus type `focusType`, all else empty. -/
def samplePanel (location : String) (focusType : filePanelFocusType) : filePanel :=
  { cursor := 0
    location := location
    sortOptions :=
      { width := 20, height := 4, «open» := false, cursor := 0
        data := { options := ["Name", "Size", "Date Modified"], selected := 0, reversed := false } }
    panelMode := panelModeType.browserMode
    focusType := focusType
    element := []
    directoryRecord := []
    rename := { value := "", focus := false, Width := 0 }
    «renaming» := false
    searchBar := { value := "", focus := false, Width := 0 } }

/-- A state with the given panels, focus index, focus owner, stored geometry
(panel width, preview flag, preview width, maximal panel count), terminal
width and configuration; the footer is shown and every modal is closed. -/
def sampleModel (panels : List filePanel) (focusIndex : Int) (owner : focusPanelType)
    (width : Int) (previewOpen : Bool) (previewWidth maxFilePanel fullWidth : Int)
    (cfg : ConfigType) : model :=
  { fileModel :=
      { filePanels := panels
        width := width
        «renaming» := false
        maxFilePanel := maxFilePanel
        filePreview := { «open» := previewOpen, width := previewWidth } }
    filePanelFocusIndex := focusIndex
    focusPanel := owner
    fullWidth := fullWidth
    footerHeight := 6
    toggleFooter := true
    firstTextInput := false
    typingModal :=
      { location := "/home", «open» := false
        textInput := { value := "", focus := false, Width := 0 } }
    warnModal := { «open» := false }
    helpMenu := { height := 5, «open» := false, data := [], cursor := 1, renderIndex := 0 }
    commandLine := { input := { value := "", focus := false, Width := 0 } }
    Config := cfg
    newFilePanelDir := "/new" }

/-- Three panels on a terminal of width 100 with a sidebar of width 20 and
the preview closed; the first panel is focused. -/
def threePanels : model :=
  sampleModel
    [samplePanel "/a" filePanelFocusType.focus, samplePanel "/b" filePanelFocusType.noneFocus,
      samplePanel "/c" filePanelFocusType.noneFocus]
    0 focusPanelType.nonePanelFocus 24 false 0 4 100 { SidebarWidth := 20, FilePreviewWidth := 0 }

/-- Four panels on a terminal of width 100 with a sidebar of width 20 and the
preview closed: the panel count equals `maxFilePanel = 80 / 20`. -/
def fourPanels : model :=
  sampleModel
    [samplePanel "/a" filePanelFocusType.focus, samplePanel "/b" filePanelFocusType.noneFocus,
      samplePanel "/c" filePanelFocusType.noneFocus, samplePanel "/d" filePanelFocusType.noneFocus]
    0 focusPanelType.nonePanelFocus 17 false 0 4 100 { SidebarWidth := 20, FilePreviewWidth := 0 }

/-! ## Geometry invariant -/

/-- The stored geometry of a state is coherent: the focus index is valid, the
panel count is at most `maxFilePanel`, `maxFilePanel` is
`(fullWidth - SidebarWidth - previewWidth) / 20`, and the stored preview width
is the one the handlers compute for the current panel count (any stored value
when the preview is closed). -/
def geometryCoherent (m : model) : Prop :=
  validFocusIndex m ∧
  (m.fileModel.filePanels.length : Int) ≤ m.fileModel.maxFilePanel ∧
  m.fileModel.maxFilePanel
    = Int.tdiv (m.fullWidth - m.Config.SidebarWidth - m.fileModel.filePreview.width) 20 ∧
  previewWidthUpdate m (m.fileModel.filePanels.length : Int) = some m.fileModel.filePreview.width

instance (m : model) : Decidable (geometryCoherent m) := by
  unfold geometryCoherent; infer_instance

/-! ## The layout function of the specification -/

/-- The preview width of the layout function: 0 when the preview is closed,
`(W - S - (4 + 2N)) / (N + 1)` when it is open with divisor `D = 0`, and
`(W - S) / D` otherwise. -/
def layoutPreviewWidth (W S : Int) (previewOpen : Bool) (D N : Int) : Int :=
  if previewOpen = false then 0
  else if D = 0 then Int.tdiv (W - S - (4 + 2 * N)) (N + 1)
  else Int.tdiv (W - S) D

/-- The panel width of the layout function:
`(W - S - previewWidth - (4 + 2·(N-1))) / N`. -/
def layoutPanelWidth (W S previewWidth N : Int) : Int :=
  Int.tdiv (W - S - previewWidth - (4 + 2 * (N - 1))) N

/-- The maximal panel count of the layout function:
`(W - S - previewWidth) / 20`. -/
def layoutMaxPanelCount (W S previewWidth : Int) : Int :=
  Int.tdiv (W - S - previewWidth) 20

/-- The stored geometry of `m` is the layout function at the panel count and
preview flag of `m`, and every search bar has the panel width minus 4. -/
def geometryMatchesLayout (m : model) : Prop :=
  m.fileModel.filePreview.width
    = layoutPreviewWidth m.fullWidth m.Config.SidebarWidth m.fileModel.filePreview.open
        m.Config.FilePreviewWidth (m.fileModel.filePanels.length : Int) ∧
  m.fileModel.width
    = layoutPanelWidth m.fullWidth m.Config.SidebarWidth m.fileModel.filePreview.width
        (m.fileModel.filePanels.length : Int) ∧
  m.fileModel.maxFilePanel
    = layoutMaxPanelCount m.fullWidth m.Config.SidebarWidth m.fileModel.filePreview.width ∧
  ∀ p ∈ m.fileModel.filePanels, p.searchBar.Width = m.fileModel.width - 4

/-- The panels of `m` with their separators fill the space left of the
preview exactly: `N * width + (4 + 2·(N-1)) = W - S - previewWidth`. -/
def panelsFillExactly (m : model) : Prop :=
  (m.fileModel.filePanels.length : Int) * m.fileModel.width
      + (4 + 2 * ((m.fileModel.filePanels.length : Int) - 1))
    = m.fullWidth - m.Config.SidebarWidth - m.fileModel.filePreview.width

/-- The panels of `m` with their separators fit into the space left of the
preview and leave fewer than `N` columns of it unused. -/
def panelsFillUpToRounding (m : model) : Prop :=
  (m.fileModel.filePanels.length : Int) * m.fileModel.width
      + (4 + 2 * ((m.fileModel.filePanels.length : Int) - 1))
    ≤ m.fullWidth - m.Config.SidebarWidth - m.fileModel.filePreview.width ∧
  m.fullWidth - m.Config.SidebarWidth - m.fileModel.filePreview.width
    < (m.fileModel.filePanels.length : Int) * m.fileModel.width
      + (4 + 2 * ((m.fileModel.filePanels.length : Int) - 1))
      + (m.fileModel.filePanels.length : Int)

instance (m : model) : Decidable (panelsFillExactly m) := by
  unfold panelsFillExactly; infer_instance

instance (m : model) : Decidable (panelsFillUpToRounding m) := by
  unfold panelsFillUpToRounding; infer_instance

/-! ## Counting the panels with the primary focus type -/

/-- The number of panels whose focus type is primary (`focus`). -/
def primaryCount (ps : List filePanel) : Nat :=
  ps.countP (fun p => decide (p.focusType = filePanelFocusType.focus))

/-- No panel other than the one at index `k` has the primary focus type. -/
def onlyPrimaryAt (ps : List filePanel) (k : Int) : Prop :=
  ∀ (j : Nat) (p : filePanel), ps[j]? = some p → (j : Int) ≠ k →
    p.focusType ≠ filePanelFocusType.focus

/-! ## Concrete states of the modals -/

/-- The command line is closed: the input is empty and blurred. -/
def commandLineClosed (m : model) : Prop :=
  m.commandLine.input.value = "" ∧ m.commandLine.input.focus = false

instance (m : model) : Decidable (commandLineClosed m) := by
  unfold commandLineClosed; infer_instance

/-- Three panels with the command line opened by `openCommandLine` and the
text `cmd` typed into it. -/
def commandLineTyped (cmd : String) : model :=
  let m := openCommandLine threePanels
  { m with commandLine := { input := m.commandLine.input.SetValue cmd } }

/-- A platform on which every command fails to run. -/
def failingShell : commandLineEnv :=
  { GOOS := "linux"
    CombinedOutput := fun _ _ _ => ("sh: 1: nosuchcommand: not found", false)
    TrimSpace := fun s => s
    Abs := fun s => some s
    Stat := fun _ => statResult.notExist
    Dir := fun s => s }

/-- A filesystem on which directories and files can be created; paths are
joined with `/`. -/
def workingFs : createItemEnv :=
  { Separator := "/"
    Join := fun a b => a ++ "/" ++ b
    Dir := fun _ => "/home"
    renameIfDuplicate := fun p => p
    MkdirAll := fun _ => true
    Create := fun _ => true }

/-- Three panels with the create-item prompt open and the text `name` typed
into it. -/
def typingModalTyped (name : String) : model :=
  { threePanels with
    typingModal :=
      { location := "/home", «open» := true
        textInput := { value := name, focus := true, Width := 20 } } }

/-! ## Focus owner and focused panel -/

/-- The panel at `filePanelFocusIndex` (`none` when the index is out of range). -/
def focusedPanel (m : model) : Option filePanel :=
  index m.fileModel.filePanels m.filePanelFocusIndex

/-- The focus owner and the focused panel agree: the panel at
`filePanelFocusIndex` has the primary focus type when `focusPanel` is
`nonePanelFocus`, and the secondary focus type otherwise. -/
def focusAgrees (m : model) : Prop :=
  ∃ p, focusedPanel m = some p ∧
    (m.focusPanel = focusPanelType.nonePanelFocus → p.focusType = filePanelFocusType.focus) ∧
    (m.focusPanel ≠ focusPanelType.nonePanelFocus → p.focusType = filePanelFocusType.secondFocus)

/-- A single panel on a terminal of width 100 with a sidebar of width 20 and
the preview closed. -/
def onePanel : model :=
  sampleModel [samplePanel "/a" filePanelFocusType.focus]
    0 focusPanelType.nonePanelFocus 76 false 0 4 100 { SidebarWidth := 20, FilePreviewWidth := 0 }

/-! ## Sort-options menu (`handle_modal.go`) -/

/-- The pattern `panel := &m.fileModel.filePanels[m.filePanelFocusIndex]`
followed by assignments to fields of `panel`: the focused panel is replaced by
`f` of it; a panic when the focus index is out of range. -/
def updateFocusedPanel (m : model) (f : filePanel → filePanel) : Option model :=
  match index m.fileModel.filePanels m.filePanelFocusIndex with
  | none => none
  | some panel =>
    some { m with
      fileModel := { m.fileModel with
        filePanels := m.fileModel.filePanels.set m.filePanelFocusIndex.toNat (f panel) } }

/-- The handler `openSortOptionsMenu`. -/
def openSortOptionsMenu (m : model) : Option model :=
  updateFocusedPanel m (fun panel =>
    { panel with sortOptions := { panel.sortOptions with «open» := true } })

/-- The handler `cancelSortOptions`. -/
def cancelSortOptions (m : model) : Option model :=
  updateFocusedPanel m (fun panel =>
    { panel with
      sortOptions := { panel.sortOptions with
        cursor := panel.sortOptions.data.selected
        «open» := false } })

/-- The handler `confirmSortOptions`. -/
def confirmSortOptions (m : model) : Option model :=
  updateFocusedPanel m (fun panel =>
    { panel with
      sortOptions := { panel.sortOptions with
        data := { panel.sortOptions.data with selected := panel.sortOptions.cursor }
        «open» := false } })

/-- The handler `sortOptionsListUp`. -/
def sortOptionsListUp (m : model) : Option model :=
  updateFocusedPanel m (fun panel =>
    if panel.sortOptions.cursor > 0 then
      { panel with sortOptions := { panel.sortOptions with cursor := panel.sortOptions.cursor - 1 } }
    else
      { panel with
        sortOptions := { panel.sortOptions with
          cursor := (panel.sortOptions.data.options.length : Int) - 1 } })

/-- The handler `sortOptionsListDown`. -/
def sortOptionsListDown (m : model) : Option model :=
  updateFocusedPanel m (fun panel =>
    if panel.sortOptions.cursor < (panel.sortOptions.data.options.length : Int) - 1 then
      { panel with sortOptions := { panel.sortOptions with cursor := panel.sortOptions.cursor + 1 } }
    else
      { panel with sortOptions := { panel.sortOptions with cursor := 0 } })

/-- The handler `toggleReverseSort`. -/
def toggleReverseSort (m : model) : Option model :=
  updateFocusedPanel m (fun panel =>
    { panel with
      sortOptions := { panel.sortOptions with
        data := { panel.sortOptions.data with reversed := !panel.sortOptions.data.reversed } } })

/-- The three handlers that can be used while the sort-options menu is open. -/
inductive sortMenuOp where
  | listUp
  | listDown
  | toggleReverse
  deriving DecidableEq, Repr

/-- The handler named by a sort-menu operation. -/
def sortMenuOp.run : sortMenuOp → model → Option model
  | sortMenuOp.listUp => sortOptionsListUp
  | sortMenuOp.listDown => sortOptionsListDown
  | sortMenuOp.toggleReverse => toggleReverseSort

/-- Runs the handlers of a finite sequence of sort-menu operations one after
the other; a panic of one handler ends the run. -/
def runSortMenuOps : List sortMenuOp → model → Option model
  | [], m => some m
  | op :: ops, m => (op.run m).bind (runSortMenuOps ops)

/-! ## Help menu (`handle_modal.go`) -/

/-- The handler `helpMenuListUp`. -/
def helpMenuListUp (m : model) : Option model :=
  if m.helpMenu.cursor > 1 then do
    let cursor := m.helpMenu.cursor - 1
    let renderIndex ←
      if cursor < m.helpMenu.renderIndex then do
        let entry ← index m.helpMenu.data cursor
        if entry.subTitle ≠ "" then pure (m.helpMenu.renderIndex - 1 - 1)
        else pure (m.helpMenu.renderIndex - 1)
      else pure m.helpMenu.renderIndex
    let entry ← index m.helpMenu.data cursor
    let cursor := if entry.subTitle ≠ "" then cursor - 1 else cursor
    some { m with helpMenu := { m.helpMenu with cursor := cursor, renderIndex := renderIndex } }
  else
    some { m with
      helpMenu := { m.helpMenu with
        cursor := (m.helpMenu.data.length : Int) - 1
        renderIndex := (m.helpMenu.data.length : Int) - m.helpMenu.height } }

/-- The handler `helpMenuListDown`. -/
def helpMenuListDown (m : model) : Option model :=
  if m.helpMenu.data.length = 0 then
    some m
  else if m.helpMenu.cursor < (m.helpMenu.data.length : Int) - 1 then do
    let cursor := m.helpMenu.cursor + 1
    let renderIndex ←
      if cursor > m.helpMenu.renderIndex + m.helpMenu.height - 1 then do
        let entry ← index m.helpMenu.data cursor
        if entry.subTitle ≠ "" then pure (m.helpMenu.renderIndex + 1 + 1)
        else pure (m.helpMenu.renderIndex + 1)
      else pure m.helpMenu.renderIndex
    let entry ← index m.helpMenu.data cursor
    let cursor := if entry.subTitle ≠ "" then cursor + 1 else cursor
    some { m with helpMenu := { m.helpMenu with cursor := cursor, renderIndex := renderIndex } }
  else
    some { m with helpMenu := { m.helpMenu with cursor := 1, renderIndex := 0 } }

/-- The cursor of the help menu is a valid index of at least 1. -/
def helpCursorValid (m : model) : Prop :=
  1 ≤ m.helpMenu.cursor ∧ m.helpMenu.cursor < (m.helpMenu.data.length : Int)

/-- The cursor of the help menu lies in the viewport
`[renderIndex, renderIndex + height - 1]`. -/
def helpCursorVisible (m : model) : Prop :=
  m.helpMenu.renderIndex ≤ m.helpMenu.cursor ∧
  m.helpMenu.cursor ≤ m.helpMenu.renderIndex + m.helpMenu.height - 1

instance (m : model) : Decidable (helpCursorValid m) := by
  unfold helpCursorValid; infer_instance

instance (m : model) : Decidable (helpCursorVisible m) := by
  unfold helpCursorVisible; infer_instance

/-- A help-menu row without sub-title. -/
def helpRow (description : String) : helpMenuModalData :=
  { subTitle := "", description := description }

/-- A help-menu row that carries a sub-title. -/
def helpTitle (subTitle : String) : helpMenuModalData :=
  { subTitle := subTitle, description := "" }

/-- Three panels with a help menu of the given height, rows, cursor and
render index. -/
def helpState (height : Int) (data : List helpMenuModalData) (cursor renderIndex : Int) :
    model :=
  { threePanels with
    helpMenu :=
      { height := height, «open» := true, data := data, cursor := cursor,
        renderIndex := renderIndex } }

/-- Eight rows of which only the row at index 3 has a sub-title. -/
def rowsTitleAt3 : List helpMenuModalData :=
  [helpRow "r0", helpRow "r1", helpRow "r2", helpTitle "Panel", helpRow "r4", helpRow "r5",
    helpRow "r6", helpRow "r7"]

/-- Eight rows with sub-titles at index 0 and index 4. -/
def rowsTitleAt0And4 : List helpMenuModalData :=
  [helpTitle "General", helpRow "r1", helpRow "r2", helpRow "r3", helpTitle "Panel",
    helpRow "r5", helpRow "r6", helpRow "r7"]

/-- Eight rows of which only the row at index 1 has a sub-title. -/
def rowsTitleAt1 : List helpMenuModalData :=
  [helpRow "r0", helpTitle "General", helpRow "r2", helpRow "r3", helpRow "r4", helpRow "r5",
    helpRow "r6", helpRow "r7"]

/-! ## Pinned directories (`handle_panel_navigation.go`) -/

/-- One pinned directory as read by `getPinnedDirectories` (`directory`). -/
structure directory where
  location : String
  name : String
  deriving DecidableEq, Repr

/-- One pinned directory as serialised (`pinnedDir`). -/
structure pinnedDir where
  Location : String
  Name : String
  deriving DecidableEq, Repr

/-- The conversion of the second loop of `pinnedDirectory`. -/
def toPinnedDir (dir : directory) : pinnedDir :=
  { Location := dir.location, Name := dir.name }

/-- The backing array after `dirs = append(dirs[:i], dirs[i+1:]...)` for a
slice of length `len` over the backing array `arr`: the elements after
position `i` move one place to the left inside the array, and the places from
`len - 1` on keep what they held. -/
def removeInPlace (arr : List directory) (len i : Nat) : List directory :=
  arr.take i ++ (arr.drop (i + 1)).take (len - (i + 1)) ++ arr.drop (len - 1)

/-- The loop `for i, other := range dirs` of `pinnedDirectory` with `steps`
iterations left, at index `i`: the range reads `other` from the backing array
`arr`, which the body rewrites in place while the slice `dirs` shrinks to
length `len`; `dirs[i+1:]` panics when `i + 1` exceeds that length. The result
is the backing array, the length of `dirs` and the flag `unPinned`. -/
def pinLoop (L : String) : Nat → Nat → List directory → Nat → Bool →
    Option (List directory × Nat × Bool)
  | 0, _, arr, len, unPinned => some (arr, len, unPinned)
  | steps + 1, i, arr, len, unPinned =>
    match arr[i]? with
    | none => none
    | some other =>
      if other.location = L then
        if i + 1 ≤ len then pinLoop L steps (i + 1) (removeInPlace arr len i) (len - 1) true
        else none
      else pinLoop L steps (i + 1) arr len unPinned

/-- The handler `pinnedDirectory`, given the list returned by
`getPinnedDirectories` and the function `filepath.Base`: the resulting state
and the list that is serialised and written to the pinned file. -/
def pinnedDirectory (getPinnedDirectories : List directory) (Base : String → String)
    (m : model) : Option (model × List pinnedDir) := do
  let panel ← index m.fileModel.filePanels m.filePanelFocusIndex
  let looped ← pinLoop panel.location getPinnedDirectories.length 0 getPinnedDirectories
    getPinnedDirectories.length false
  let dirs := looped.1.take looped.2.1
  let dirs :=
    if !looped.2.2 then dirs ++ [{ location := panel.location, name := Base panel.location }]
    else dirs
  let pinnedDirs := dirs.map toPinnedDir
  some ({ m with
      fileModel := { m.fileModel with
        filePanels := m.fileModel.filePanels.set m.filePanelFocusIndex.toNat panel } },
    pinnedDirs)

/-- The last path element, for paths without a trailing slash
(`filepath.Base` on such paths). -/
def lastElement (path : String) : String :=
  String.mk ((path.data.reverse.takeWhile (fun c => c ≠ '/')).reverse)

/-- Three pinned directories, the second of which is `/a`. -/
def pinnedThree : List directory :=
  [{ location := "/home", name := "home" }, { location := "/a", name := "a" },
    { location := "/tmp", name := "tmp" }]

/-! ## Lemmas on the Go primitives -/

theorem goDiv_of_ne {a b : Int} (h : b ≠ 0) : goDiv a b = some (Int.tdiv a b) := by
  simp [goDiv, h]

/-! ## Truncated division -/

theorem tdiv_bounds_of_nonneg {a b : Int} (ha : 0 ≤ a) (hb : 0 < b) :
    b * Int.tdiv a b ≤ a ∧ a < b * Int.tdiv a b + b := by
  have h1 := Int.tdiv_add_tmod a b
  have h2 := Int.tmod_lt_of_pos a hb
  have h3 := Int.tmod_nonneg b ha
  constructor <;> omega

theorem tdiv_bounds_of_nonpos {a b : Int} (ha : a ≤ 0) (hb : 0 < b) :
    a ≤ b * Int.tdiv a b ∧ b * Int.tdiv a b - b < a := by
  have h := tdiv_bounds_of_nonneg (a := -a) (by omega) hb
  rw [Int.neg_tdiv] at h
  have : b * -(a.tdiv b) = -(b * a.tdiv b) := by ring
  rw [this] at h
  constructor <;> omega

theorem le_tdiv_twenty {x c : Int} (hc : 1 ≤ c) : c ≤ Int.tdiv x 20 ↔ 20 * c ≤ x := by
  rcases le_or_lt 0 x with hx | hx
  · rw [Int.tdiv_eq_ediv hx (by norm_num)]; omega
  · have := tdiv_bounds_of_nonpos (a := x) (b := 20) (by omega) (by norm_num)
    omega

theorem auto_preview_num_nonneg {A N : Int} (hN : 1 ≤ N)
    (h : 20 * N ≤ A - Int.tdiv (A - (4 + N * 2)) (N + 1)) : 20 * N ≤ A := by
  rcases le_or_lt 0 (A - (4 + N * 2)) with hx | hx
  · have := Int.tdiv_nonneg hx (show (0:Int) ≤ N + 1 by omega)
    omega
  · have hb := tdiv_bounds_of_nonpos (a := A - (4 + N * 2)) (b := N + 1) (by omega) (by omega)
    nlinarith [hb.1, hb.2]

theorem auto_preview_create {A N : Int} (hN : 1 ≤ N)
    (h : 20 * (N + 1) ≤ A - Int.tdiv (A - (4 + N * 2)) (N + 1)) :
    20 * (N + 1) ≤ A - Int.tdiv (A - (4 + (N + 1) * 2)) (N + 1 + 1) := by
  have hA : 20 * N ≤ A := auto_preview_num_nonneg hN (by omega)
  have h0 : 0 ≤ A - (4 + N * 2) := by nlinarith
  have hb := tdiv_bounds_of_nonneg h0 (show (0:Int) < N + 1 by omega)
  rcases le_or_lt 0 (A - (4 + (N + 1) * 2)) with hx | hx
  · have hb' := tdiv_bounds_of_nonneg hx (show (0:Int) < N + 1 + 1 by omega)
    have : Int.tdiv (A - (4 + (N + 1) * 2)) (N + 1 + 1) ≤ Int.tdiv (A - (4 + N * 2)) (N + 1) := by
      by_contra hc
      push_neg at hc
      have hq := Int.tdiv_nonneg h0 (show (0:Int) ≤ N + 1 by omega)
      have hm : 0 ≤ (N + 1 + 1) * (Int.tdiv (A - (4 + (N + 1) * 2)) (N + 1 + 1)
          - Int.tdiv (A - (4 + N * 2)) (N + 1) - 1) :=
        mul_nonneg (by omega) (by omega)
      nlinarith [hb.1, hb.2, hb'.1, hb'.2]
    omega
  · have hb' := tdiv_bounds_of_nonpos (a := A - (4 + (N + 1) * 2)) (b := N + 1 + 1) (by omega) (by omega)
    nlinarith [hb.1, hb.2, hb'.1, hb'.2]

theorem auto_preview_close {A N : Int} (hN : 1 ≤ N)
    (h : 20 * (N + 1) ≤ A - Int.tdiv (A - (4 + (N + 1) * 2)) (N + 1 + 1)) :
    20 * N ≤ A - Int.tdiv (A - (4 + N * 2)) (N + 1) := by
  have hA : 20 * (N + 1) ≤ A := auto_preview_num_nonneg (by omega) h
  have h0 : 0 ≤ A - (4 + N * 2) := by nlinarith
  have hb := tdiv_bounds_of_nonneg h0 (show (0:Int) < N + 1 by omega)
  nlinarith [hb.1, hb.2]

/-! ## Slices -/

theorem index_natCast {α : Type} (ps : List α) (k : Nat) : index ps (k : Int) = ps[k]? := by
  simp [index]

theorem setFocusType_natCast (ps : List filePanel) (k : Nat) (t : filePanelFocusType)
    (hk : k < ps.length) : setFocusType ps (k : Int) t = some (setFocusTypeAt ps k t) := by
  simp [setFocusType, hk]

theorem length_setFocusTypeAt (ps : List filePanel) (k : Nat) (t : filePanelFocusType) :
    (setFocusTypeAt ps k t).length = ps.length := by
  induction ps generalizing k with
  | nil => simp [setFocusTypeAt]
  | cons p ps ih => cases k <;> simp [setFocusTypeAt, ih]

theorem length_setSearchBarWidth (ps : List filePanel) (w : Int) :
    (setSearchBarWidth ps w).length = ps.length := by
  simp [setSearchBarWidth]

theorem getElem?_setFocusTypeAt (ps : List filePanel) (k j : Nat) (t : filePanelFocusType) :
    (setFocusTypeAt ps k t)[j]?
      = if j = k then ps[j]?.map (fun p => { p with focusType := t }) else ps[j]? := by
  induction ps generalizing k j with
  | nil => cases k <;> simp [setFocusTypeAt]
  | cons p ps ih =>
    cases k with
    | zero =>
      cases j with
      | zero => simp [setFocusTypeAt]
      | succ j => simp [setFocusTypeAt]
    | succ k =>
      cases j with
      | zero => simp [setFocusTypeAt]
      | succ j => simp [setFocusTypeAt, ih]

theorem getElem?_setSearchBarWidth (ps : List filePanel) (w : Int) (j : Nat) :
    (setSearchBarWidth ps w)[j]?
      = ps[j]?.map (fun p => { p with searchBar := { p.searchBar with Width := w } }) := by
  simp [setSearchBarWidth]

theorem focusType_setFocusTypeAt (ps : List filePanel) (k : Nat) (t : filePanelFocusType)
    (hk : k < ps.length) :
    (index (setFocusTypeAt ps k t) (k : Int)).map (fun p => p.focusType) = some t := by
  rw [index_natCast, getElem?_setFocusTypeAt, if_pos rfl, List.getElem?_eq_getElem hk]
  rfl

theorem mem_setSearchBarWidth {ps : List filePanel} {w : Int} {p : filePanel}
    (h : p ∈ setSearchBarWidth ps w) : p.searchBar.Width = w := by
  simp only [setSearchBarWidth, List.mem_map] at h
  obtain ⟨q, -, rfl⟩ := h
  rfl

theorem exists_nat_of_validFocusIndex {m : model} (h : validFocusIndex m) :
    ∃ k : Nat, k < m.fileModel.filePanels.length ∧ m.filePanelFocusIndex = (k : Int) := by
  refine ⟨m.filePanelFocusIndex.toNat, ?_, ?_⟩
  · have := h.1; have := h.2; omega
  · have := h.1; omega

theorem previewWidthUpdate_some (m : model) (n : Nat) :
    ∃ pw, previewWidthUpdate m (n : Int) = some pw := by
  unfold previewWidthUpdate
  split
  · split
    · exact ⟨_, goDiv_of_ne (by omega)⟩
    · rename_i h; exact ⟨_, goDiv_of_ne h⟩
  · exact ⟨_, rfl⟩

theorem createNewFilePanel_spec (m : model) (k : Nat)
    (hk : k < m.fileModel.filePanels.length) (hi : m.filePanelFocusIndex = (k : Int))
    (hne : (m.fileModel.filePanels.length : Int) ≠ m.fileModel.maxFilePanel) :
    ∃ cur pw, m.fileModel.filePanels[k]? = some cur ∧
      previewWidthUpdate m ((m.fileModel.filePanels.length : Int) + 1) = some pw ∧
      createNewFilePanel m = some { m with
        fileModel := { m.fileModel with
          filePanels := setSearchBarWidth
            (setFocusTypeAt (setFocusTypeAt (m.fileModel.filePanels ++ [newPanel m cur.sortOptions]) k
              filePanelFocusType.noneFocus) (k + 1) (returnFocusType m.focusPanel))
            (Int.tdiv (m.fullWidth - m.Config.SidebarWidth - pw
              - (4 + ((m.fileModel.filePanels.length : Int) + 1 - 1) * 2))
              ((m.fileModel.filePanels.length : Int) + 1) - 4)
          width := Int.tdiv (m.fullWidth - m.Config.SidebarWidth - pw
              - (4 + ((m.fileModel.filePanels.length : Int) + 1 - 1) * 2))
              ((m.fileModel.filePanels.length : Int) + 1)
          maxFilePanel := Int.tdiv (m.fullWidth - m.Config.SidebarWidth - pw) 20
          filePreview := { m.fileModel.filePreview with width := pw } }
        filePanelFocusIndex := (k : Int) + 1 } := by
  obtain ⟨pw, hpw⟩ := previewWidthUpdate_some m (m.fileModel.filePanels.length + 1)
  have hcur : m.fileModel.filePanels[k]? = some (m.fileModel.filePanels[k]) := by
    simp [hk]
  refine ⟨_, pw, hcur, by simpa using hpw, ?_⟩
  have hpw2 : previewWidthUpdate m ((m.fileModel.filePanels.length : Int) + 1) = some pw := by
    simpa using hpw
  have hn : ((m.fileModel.filePanels.length : Int) + 1) ≠ 0 := by omega
  have hk2 : k + 1 < m.fileModel.filePanels.length + 1 := by omega
  have h1 := setFocusType_natCast (m.fileModel.filePanels ++ [newPanel m m.fileModel.filePanels[k].sortOptions]) k filePanelFocusType.noneFocus (by simp; omega)
  have h2 := setFocusType_natCast (setFocusTypeAt (m.fileModel.filePanels ++ [newPanel m m.fileModel.filePanels[k].sortOptions]) k filePanelFocusType.noneFocus) (k+1) (returnFocusType m.focusPanel) (by simp [length_setFocusTypeAt]; omega)
  simp only [createNewFilePanel, if_neg hne, hi, index_natCast, hcur, Option.bind_eq_bind, Option.some_bind, List.length_append, List.length_singleton, Nat.cast_add, Nat.cast_one]
  push_cast at h2
  simp [hpw2, h1, h2, goDiv]
  rw [if_neg hn]
  simp

theorem removeAt_natCast (ps : List filePanel) (k : Nat) (hk : k < ps.length) :
    removeAt ps (k : Int) = some (ps.eraseIdx k) := by
  have : (k : Int) + 1 ≤ (ps.length : Int) := by omega
  simp [removeAt, this]

theorem closeFilePanel_spec (m : model) (k : Nat)
    (hk : k < m.fileModel.filePanels.length) (hi : m.filePanelFocusIndex = (k : Int))
    (hne : m.fileModel.filePanels.length ≠ 1) :
    ∃ pw, previewWidthUpdate m ((m.fileModel.filePanels.eraseIdx k).length : Int) = some pw ∧
      closeFilePanel m = some { m with
        fileModel := { m.fileModel with
          filePanels := setSearchBarWidth
            (setFocusTypeAt (m.fileModel.filePanels.eraseIdx k) (k - 1) (returnFocusType m.focusPanel))
            (Int.tdiv (m.fullWidth - m.Config.SidebarWidth - pw
              - (4 + (((m.fileModel.filePanels.eraseIdx k).length : Int) - 1) * 2))
              ((m.fileModel.filePanels.eraseIdx k).length : Int) - 4)
          width := Int.tdiv (m.fullWidth - m.Config.SidebarWidth - pw
              - (4 + (((m.fileModel.filePanels.eraseIdx k).length : Int) - 1) * 2))
              ((m.fileModel.filePanels.eraseIdx k).length : Int)
          maxFilePanel := Int.tdiv (m.fullWidth - m.Config.SidebarWidth - pw) 20
          filePreview := { m.fileModel.filePreview with width := pw } }
        filePanelFocusIndex := ((k - 1 : Nat) : Int) } := by
  obtain ⟨pw, hpw⟩ := previewWidthUpdate_some m (m.fileModel.filePanels.eraseIdx k).length
  refine ⟨pw, hpw, ?_⟩
  have hlen : (m.fileModel.filePanels.eraseIdx k).length = m.fileModel.filePanels.length - 1 :=
    by rw [List.length_eraseIdx, if_pos hk]
  have hn : ((m.fileModel.filePanels.eraseIdx k).length : Int) ≠ 0 := by omega
  have hidx : (if (k : Int) ≠ 0 then (k : Int) - 1 else (k : Int)) = ((k - 1 : Nat) : Int) := by
    split <;> omega
  have h1 := setFocusType_natCast (m.fileModel.filePanels.eraseIdx k) (k - 1)
    (returnFocusType m.focusPanel) (by omega)
  simp only [closeFilePanel, if_neg hne, hi, removeAt_natCast _ _ hk, Option.bind_eq_bind,
    Option.some_bind, hpw, hidx, h1, goDiv_of_ne hn]
  simp [goDiv]

theorem toggleFilePreviewPanel_spec (m : model) (hne : m.fileModel.filePanels.length ≠ 0) :
    ∃ pw, previewWidthUpdate { m with
        fileModel := { m.fileModel with
          filePreview := { «open» := !m.fileModel.filePreview.open, width := 0 } } }
        (m.fileModel.filePanels.length : Int) = some pw ∧
      toggleFilePreviewPanel m = some { m with
        fileModel := { m.fileModel with
          filePanels := setSearchBarWidth m.fileModel.filePanels
            (Int.tdiv (m.fullWidth - m.Config.SidebarWidth - pw
              - (4 + ((m.fileModel.filePanels.length : Int) - 1) * 2))
              (m.fileModel.filePanels.length : Int) - 4)
          width := Int.tdiv (m.fullWidth - m.Config.SidebarWidth - pw
              - (4 + ((m.fileModel.filePanels.length : Int) - 1) * 2))
              (m.fileModel.filePanels.length : Int)
          maxFilePanel := Int.tdiv (m.fullWidth - m.Config.SidebarWidth - pw) 20
          filePreview := { «open» := !m.fileModel.filePreview.open, width := pw } } } := by
  obtain ⟨pw, hpw⟩ := previewWidthUpdate_some { m with
        fileModel := { m.fileModel with
          filePreview := { «open» := !m.fileModel.filePreview.open, width := 0 } } }
        m.fileModel.filePanels.length
  refine ⟨pw, hpw, ?_⟩
  have hn : (m.fileModel.filePanels.length : Int) ≠ 0 := by omega
  simp only [toggleFilePreviewPanel, Option.bind_eq_bind, hpw, Option.some_bind, goDiv_of_ne hn]
  simp [goDiv]

/-- The index reached by `nextFilePanel` from index `k` among `n` panels. -/
theorem nextIndex_eq (k n : Nat) :
    (if (k : Int) = (n : Int) - 1 then (0 : Int) else (k : Int) + 1)
      = ((if k + 1 = n then 0 else k + 1 : Nat) : Int) := by
  split <;> split <;> omega

theorem prevIndex_eq (k n : Nat) (hk : k < n) :
    (if (k : Int) = 0 then (n : Int) - 1 else (k : Int) - 1)
      = ((if k = 0 then n - 1 else k - 1 : Nat) : Int) := by
  split <;> split <;> omega

theorem nextFilePanel_spec (m : model) (k : Nat)
    (hk : k < m.fileModel.filePanels.length) (hi : m.filePanelFocusIndex = (k : Int)) :
    ∃ p, (setFocusTypeAt (setFocusTypeAt m.fileModel.filePanels k filePanelFocusType.noneFocus)
          (if k + 1 = m.fileModel.filePanels.length then 0 else k + 1)
          (returnFocusType m.focusPanel))[
            (if k + 1 = m.fileModel.filePanels.length then 0 else k + 1)]? = some p ∧
      nextFilePanel m = some { m with
        fileModel := { m.fileModel with
          filePanels := setFocusTypeAt
            (setFocusTypeAt m.fileModel.filePanels k filePanelFocusType.noneFocus)
            (if k + 1 = m.fileModel.filePanels.length then 0 else k + 1)
            (returnFocusType m.focusPanel) }
        filePanelFocusIndex := ((if k + 1 = m.fileModel.filePanels.length then 0 else k + 1 : Nat) : Int)
        newFilePanelDir := p.location } := by
  have hk2 : (if k + 1 = m.fileModel.filePanels.length then 0 else k + 1)
      < m.fileModel.filePanels.length := by split <;> omega
  have h1 := setFocusType_natCast m.fileModel.filePanels k filePanelFocusType.noneFocus hk
  have h2 := setFocusType_natCast
    (setFocusTypeAt m.fileModel.filePanels k filePanelFocusType.noneFocus)
    (if k + 1 = m.fileModel.filePanels.length then 0 else k + 1)
    (returnFocusType m.focusPanel) (by rw [length_setFocusTypeAt]; exact hk2)
  have h3 : (if k + 1 = m.fileModel.filePanels.length then 0 else k + 1) <
      (setFocusTypeAt (setFocusTypeAt m.fileModel.filePanels k filePanelFocusType.noneFocus)
          (if k + 1 = m.fileModel.filePanels.length then 0 else k + 1)
          (returnFocusType m.focusPanel)).length := by
    rw [length_setFocusTypeAt, length_setFocusTypeAt]; exact hk2
  refine ⟨_, List.getElem?_eq_getElem h3, ?_⟩
  simp only [nextFilePanel, hi, h1, Option.bind_eq_bind, Option.some_bind, nextIndex_eq, h2,
    index_natCast, List.getElem?_eq_getElem h3]

theorem previousFilePanel_spec (m : model) (k : Nat)
    (hk : k < m.fileModel.filePanels.length) (hi : m.filePanelFocusIndex = (k : Int)) :
    ∃ p, (setFocusTypeAt (setFocusTypeAt m.fileModel.filePanels k filePanelFocusType.noneFocus)
          (if k = 0 then m.fileModel.filePanels.length - 1 else k - 1)
          (returnFocusType m.focusPanel))[
            (if k = 0 then m.fileModel.filePanels.length - 1 else k - 1)]? = some p ∧
      previousFilePanel m = some { m with
        fileModel := { m.fileModel with
          filePanels := setFocusTypeAt
            (setFocusTypeAt m.fileModel.filePanels k filePanelFocusType.noneFocus)
            (if k = 0 then m.fileModel.filePanels.length - 1 else k - 1)
            (returnFocusType m.focusPanel) }
        filePanelFocusIndex := ((if k = 0 then m.fileModel.filePanels.length - 1 else k - 1 : Nat) : Int)
        newFilePanelDir := p.location } := by
  have hk2 : (if k = 0 then m.fileModel.filePanels.length - 1 else k - 1)
      < m.fileModel.filePanels.length := by split <;> omega
  have h1 := setFocusType_natCast m.fileModel.filePanels k filePanelFocusType.noneFocus hk
  have h2 := setFocusType_natCast
    (setFocusTypeAt m.fileModel.filePanels k filePanelFocusType.noneFocus)
    (if k = 0 then m.fileModel.filePanels.length - 1 else k - 1)
    (returnFocusType m.focusPanel) (by rw [length_setFocusTypeAt]; exact hk2)
  have h3 : (if k = 0 then m.fileModel.filePanels.length - 1 else k - 1) <
      (setFocusTypeAt (setFocusTypeAt m.fileModel.filePanels k filePanelFocusType.noneFocus)
          (if k = 0 then m.fileModel.filePanels.length - 1 else k - 1)
          (returnFocusType m.focusPanel)).length := by
    rw [length_setFocusTypeAt, length_setFocusTypeAt]; exact hk2
  refine ⟨_, List.getElem?_eq_getElem h3, ?_⟩
  simp only [previousFilePanel, hi, h1, Option.bind_eq_bind, Option.some_bind,
    prevIndex_eq _ _ hk, h2, index_natCast, List.getElem?_eq_getElem h3]

theorem focusOnSideBar_spec (m : model) (k : Nat)
    (hk : k < m.fileModel.filePanels.length) (hi : m.filePanelFocusIndex = (k : Int))
    (hs : m.Config.SidebarWidth ≠ 0) :
    focusOnSideBar m = some (
      if m.focusPanel = focusPanelType.sidebarFocus then
        { m with
          focusPanel := focusPanelType.nonePanelFocus
          fileModel := { m.fileModel with
            filePanels := setFocusTypeAt m.fileModel.filePanels k filePanelFocusType.focus } }
      else
        { m with
          focusPanel := focusPanelType.sidebarFocus
          fileModel := { m.fileModel with
            filePanels := setFocusTypeAt m.fileModel.filePanels k filePanelFocusType.secondFocus } }) := by
  simp only [focusOnSideBar, if_neg hs, hi, setFocusType_natCast _ _ _ hk, Option.bind_eq_bind,
    Option.some_bind]
  split <;> rfl

theorem focusOnProcessBar_spec (m : model) (k : Nat)
    (hk : k < m.fileModel.filePanels.length) (hi : m.filePanelFocusIndex = (k : Int))
    (hs : m.toggleFooter = true) :
    focusOnProcessBar m = some (
      if m.focusPanel = focusPanelType.processBarFocus then
        { m with
          focusPanel := focusPanelType.nonePanelFocus
          fileModel := { m.fileModel with
            filePanels := setFocusTypeAt m.fileModel.filePanels k filePanelFocusType.focus } }
      else
        { m with
          focusPanel := focusPanelType.processBarFocus
          fileModel := { m.fileModel with
            filePanels := setFocusTypeAt m.fileModel.filePanels k filePanelFocusType.secondFocus } }) := by
  have hf : (!m.toggleFooter) = false := by simp [hs]
  simp only [focusOnProcessBar, hf, Bool.false_eq_true, if_false, hi, setFocusType_natCast _ _ _ hk,
    Option.bind_eq_bind, Option.some_bind]
  split <;> rfl

theorem focusOnMetadata_spec (m : model) (k : Nat)
    (hk : k < m.fileModel.filePanels.length) (hi : m.filePanelFocusIndex = (k : Int))
    (hs : m.toggleFooter = true) :
    focusOnMetadata m = some (
      if m.focusPanel = focusPanelType.metadataFocus then
        { m with
          focusPanel := focusPanelType.nonePanelFocus
          fileModel := { m.fileModel with
            filePanels := setFocusTypeAt m.fileModel.filePanels k filePanelFocusType.focus } }
      else
        { m with
          focusPanel := focusPanelType.metadataFocus
          fileModel := { m.fileModel with
            filePanels := setFocusTypeAt m.fileModel.filePanels k filePanelFocusType.secondFocus } }) := by
  have hf : (!m.toggleFooter) = false := by simp [hs]
  simp only [focusOnMetadata, hf, Bool.false_eq_true, if_false, hi, setFocusType_natCast _ _ _ hk,
    Option.bind_eq_bind, Option.some_bind]
  split <;> rfl

/-! ## Preservation of the focus index by the navigation handlers -/

theorem validFocusIndex_preserved (m : model) (hne : m.fileModel.filePanels ≠ [])
    (hv : validFocusIndex m) :
    ∀ op ∈ [createNewFilePanel, closeFilePanel, nextFilePanel, previousFilePanel],
      ∃ m', op m = some m' ∧ m'.fileModel.filePanels ≠ [] ∧ validFocusIndex m' := by
  obtain ⟨k, hk, hi⟩ := exists_nat_of_validFocusIndex hv
  intro op hop
  simp only [List.mem_cons, List.mem_singleton, List.not_mem_nil, or_false] at hop
  rcases hop with rfl | rfl | rfl | rfl
  · by_cases hmax : (m.fileModel.filePanels.length : Int) = m.fileModel.maxFilePanel
    · exact ⟨m, by simp [createNewFilePanel, hmax], hne, hv⟩
    · obtain ⟨cur, pw, -, -, h⟩ := createNewFilePanel_spec m k hk hi hmax
      refine ⟨_, h, ?_, ?_⟩
      · simp [← List.length_pos, length_setSearchBarWidth, length_setFocusTypeAt]
      · simp only [validFocusIndex, length_setSearchBarWidth, length_setFocusTypeAt,
          List.length_append, List.length_singleton]
        omega
  · by_cases hone : m.fileModel.filePanels.length = 1
    · exact ⟨m, by simp [closeFilePanel, hone], hne, hv⟩
    · obtain ⟨pw, -, h⟩ := closeFilePanel_spec m k hk hi hone
      have hlen : (m.fileModel.filePanels.eraseIdx k).length = m.fileModel.filePanels.length - 1 := by
        rw [List.length_eraseIdx, if_pos hk]
      refine ⟨_, h, ?_, ?_⟩
      · simp only [ne_eq, ← List.length_eq_zero, length_setSearchBarWidth, length_setFocusTypeAt]
        omega
      · simp only [validFocusIndex, length_setSearchBarWidth, length_setFocusTypeAt]
        omega
  · obtain ⟨p, -, h⟩ := nextFilePanel_spec m k hk hi
    refine ⟨_, h, ?_, ?_⟩
    · simp only [ne_eq, ← List.length_eq_zero, length_setFocusTypeAt]
      omega
    · simp only [validFocusIndex, length_setFocusTypeAt]
      split <;> omega
  · obtain ⟨p, -, h⟩ := previousFilePanel_spec m k hk hi
    refine ⟨_, h, ?_, ?_⟩
    · simp only [ne_eq, ← List.length_eq_zero, length_setFocusTypeAt]
      omega
    · simp only [validFocusIndex, length_setFocusTypeAt]
      split <;> omega

/-! ## C1: the panel-set invariant -/

/-- C1: from every state whose panel list is non-empty and whose
`filePanelFocusIndex` is a valid index into it, each of `createNewFilePanel`,
`closeFilePanel`, `nextFilePanel` and `previousFilePanel` returns a state whose
panel list is again non-empty and whose `filePanelFocusIndex` is again a valid
index into it. -/
theorem panelSet_invariant_preserved (m : model) (hne : m.fileModel.filePanels ≠ [])
    (hv : validFocusIndex m) :
    ∀ op ∈ [createNewFilePanel, closeFilePanel, nextFilePanel, previousFilePanel],
      ∃ m', op m = some m' ∧ m'.fileModel.filePanels ≠ [] ∧ validFocusIndex m' :=
  validFocusIndex_preserved m hne hv

/-- Witness of C1 at `closeFilePanel` on three panels. -/
theorem panelSet_invariant_preserved_witness :
    threePanels.fileModel.filePanels ≠ [] ∧ validFocusIndex threePanels ∧
      ∃ m', closeFilePanel threePanels = some m' ∧ m'.fileModel.filePanels ≠ [] ∧
        validFocusIndex m' :=
  ⟨by simp [threePanels, sampleModel], by decide,
    panelSet_invariant_preserved threePanels (by simp [threePanels, sampleModel]) (by decide)
      closeFilePanel (by simp)⟩

/-! ## C2: the focus index after `createNewFilePanel` -/

/-- C2 (code evaluated at a failing input): with three panels, the first one
focused and room for a fourth, `createNewFilePanel` appends the new panel at
index 3 but moves `filePanelFocusIndex` to 1; the panel there is the old panel
at `/b`, which receives the focus type of the focus target, while the appended
panel at `/new` keeps the secondary focus type. -/
theorem createNewFilePanel_focus_misses_new_panel :
    validFocusIndex threePanels ∧
    (threePanels.fileModel.filePanels.length : Int) ≠ threePanels.fileModel.maxFilePanel ∧
    ∃ m', createNewFilePanel threePanels = some m' ∧
      m'.fileModel.filePanels.length = 4 ∧
      m'.filePanelFocusIndex = 1 ∧
      m'.filePanelFocusIndex ≠ (m'.fileModel.filePanels.length : Int) - 1 ∧
      (index m'.fileModel.filePanels m'.filePanelFocusIndex).map (fun p => p.location)
        = some "/b" ∧
      (index m'.fileModel.filePanels 1).map (fun p => p.focusType)
        = some (returnFocusType threePanels.focusPanel) ∧
      (index m'.fileModel.filePanels 3).map (fun p => (p.location, p.focusType))
        = some (threePanels.newFilePanelDir, filePanelFocusType.secondFocus) := by
  refine ⟨by decide, by decide, _, rfl, rfl, rfl, by decide, rfl, rfl, rfl⟩

/-- When the focused panel is the last one, `createNewFilePanel` does move the
focus to the appended panel: the new focus index is the new length minus 1, and
the panel there is at `newFilePanelDir` with the focus type of the focus
target. -/
theorem createNewFilePanel_focus_of_last (m : model) (hv : validFocusIndex m)
    (hlast : m.filePanelFocusIndex = (m.fileModel.filePanels.length : Int) - 1)
    (hfull : (m.fileModel.filePanels.length : Int) ≠ m.fileModel.maxFilePanel) :
    ∃ m', createNewFilePanel m = some m' ∧
      m'.filePanelFocusIndex = (m'.fileModel.filePanels.length : Int) - 1 ∧
      (index m'.fileModel.filePanels m'.filePanelFocusIndex).map
          (fun p => (p.location, p.focusType))
        = some (m.newFilePanelDir, returnFocusType m.focusPanel) := by
  obtain ⟨k, hk, hi⟩ := exists_nat_of_validFocusIndex hv
  obtain ⟨cur, pw, -, -, e⟩ := createNewFilePanel_spec m k hk hi hfull
  have hkl : k + 1 = m.fileModel.filePanels.length := by omega
  refine ⟨_, e, ?_, ?_⟩
  · simp only [length_setSearchBarWidth, length_setFocusTypeAt, List.length_append,
      List.length_singleton]
    push_cast
    omega
  · show (index _ ((k : Int) + 1)).map _ = _
    rw [show ((k : Int) + 1) = ((k + 1 : Nat) : Int) by push_cast; rfl, index_natCast,
      getElem?_setSearchBarWidth, getElem?_setFocusTypeAt, if_pos rfl,
      getElem?_setFocusTypeAt, if_neg (by omega), hkl, List.getElem?_append_right (le_refl _)]
    simp [newPanel]

/-! ## The preview width across a change of the panel count -/

theorem previewWidthUpdate_cases {m : model} {n pw : Int}
    (h : previewWidthUpdate m n = some pw) (hn : n + 1 ≠ 0) :
    (m.fileModel.filePreview.open = false ∧ pw = m.fileModel.filePreview.width) ∨
    (m.fileModel.filePreview.open = true ∧ m.Config.FilePreviewWidth ≠ 0 ∧
      pw = Int.tdiv (m.fullWidth - m.Config.SidebarWidth) m.Config.FilePreviewWidth) ∨
    (m.fileModel.filePreview.open = true ∧ m.Config.FilePreviewWidth = 0 ∧
      pw = Int.tdiv (m.fullWidth - m.Config.SidebarWidth - (4 + n * 2)) (n + 1)) := by
  unfold previewWidthUpdate at h
  by_cases ho : m.fileModel.filePreview.open = true
  · by_cases hd : m.Config.FilePreviewWidth = 0
    · rw [if_pos ho, if_pos hd, goDiv_of_ne hn] at h
      exact Or.inr (Or.inr ⟨ho, hd, (Option.some.inj h).symm⟩)
    · rw [if_pos ho, if_neg hd, goDiv_of_ne hd] at h
      exact Or.inr (Or.inl ⟨ho, hd, (Option.some.inj h).symm⟩)
  · rw [if_neg ho] at h
    exact Or.inl ⟨by simpa using ho, (Option.some.inj h).symm⟩

/-- The preview width computed for `n` panels only depends on the terminal
width, the configuration, the preview flag and, when the preview is closed,
the stored preview width. -/
theorem previewWidthUpdate_congr {m m' : model} {n pw : Int}
    (h : previewWidthUpdate m n = some pw)
    (hW : m'.fullWidth = m.fullWidth) (hC : m'.Config = m.Config)
    (ho : m'.fileModel.filePreview.open = m.fileModel.filePreview.open)
    (hp : m'.fileModel.filePreview.width = pw) :
    previewWidthUpdate m' n = some m'.fileModel.filePreview.width := by
  unfold previewWidthUpdate at h ⊢
  rw [hW, hC, ho, hp]
  by_cases hopen : m.fileModel.filePreview.open = true
  · rw [if_pos hopen] at h ⊢; exact h
  · rw [if_neg hopen]

theorem previewWidth_bound_create {m : model} {n pw pw' : Int} (hn : 1 ≤ n)
    (h : previewWidthUpdate m n = some pw) (h' : previewWidthUpdate m (n + 1) = some pw')
    (hb : 20 * (n + 1) ≤ m.fullWidth - m.Config.SidebarWidth - pw) :
    20 * (n + 1) ≤ m.fullWidth - m.Config.SidebarWidth - pw' := by
  rcases previewWidthUpdate_cases h (by omega) with ⟨ho, e⟩ | ⟨ho, hd, e⟩ | ⟨ho, hd, e⟩ <;>
    rcases previewWidthUpdate_cases h' (by omega) with ⟨ho', e'⟩ | ⟨ho', hd', e'⟩ | ⟨ho', hd', e'⟩ <;>
    first
      | (rw [ho] at ho'; exact absurd ho' (by decide))
      | exact absurd hd' hd
      | exact absurd hd hd'
      | (rw [e'] ; rw [e] at hb; exact hb)
      | skip
  rw [e'] ; rw [e] at hb
  have := auto_preview_create (A := m.fullWidth - m.Config.SidebarWidth) hn (by omega)
  omega

theorem previewWidth_bound_close {m : model} {n pw pw' : Int} (hn : 1 ≤ n)
    (h : previewWidthUpdate m (n + 1) = some pw) (h' : previewWidthUpdate m n = some pw')
    (hb : 20 * (n + 1) ≤ m.fullWidth - m.Config.SidebarWidth - pw) :
    20 * n ≤ m.fullWidth - m.Config.SidebarWidth - pw' := by
  rcases previewWidthUpdate_cases h (by omega) with ⟨ho, e⟩ | ⟨ho, hd, e⟩ | ⟨ho, hd, e⟩ <;>
    rcases previewWidthUpdate_cases h' (by omega) with ⟨ho', e'⟩ | ⟨ho', hd', e'⟩ | ⟨ho', hd', e'⟩ <;>
    first
      | (rw [ho] at ho'; exact absurd ho' (by decide))
      | exact absurd hd' hd
      | exact absurd hd hd'
      | (rw [e'] ; rw [e] at hb; omega)
      | skip
  rw [e'] ; rw [e] at hb
  have := auto_preview_close (A := m.fullWidth - m.Config.SidebarWidth) hn (by omega)
  omega

/-! ## The geometry invariant under creation and closing -/

theorem createNewFilePanel_coherent (m : model) (h : geometryCoherent m) :
    ∃ m', createNewFilePanel m = some m' ∧ geometryCoherent m' := by
  obtain ⟨hv, hb, hmax, hst⟩ := h
  by_cases hfull : (m.fileModel.filePanels.length : Int) = m.fileModel.maxFilePanel
  · exact ⟨m, by simp [createNewFilePanel, hfull], hv, hb, hmax, hst⟩
  · obtain ⟨k, hk, hi⟩ := exists_nat_of_validFocusIndex hv
    obtain ⟨cur, pw, -, hpw, h⟩ := createNewFilePanel_spec m k hk hi hfull
    have hlen1 : (1 : Int) ≤ (m.fileModel.filePanels.length : Int) := by omega
    have hroom : 20 * ((m.fileModel.filePanels.length : Int) + 1)
        ≤ m.fullWidth - m.Config.SidebarWidth - m.fileModel.filePreview.width := by
      rw [← le_tdiv_twenty (by omega), ← hmax]; omega
    have hnew := previewWidth_bound_create hlen1 hst hpw hroom
    refine ⟨_, h, ?_, ?_, rfl, ?_⟩
    · simp only [validFocusIndex, length_setSearchBarWidth, length_setFocusTypeAt,
        List.length_append, List.length_singleton]
      omega
    · simp only [length_setSearchBarWidth, length_setFocusTypeAt, List.length_append,
        List.length_singleton, Nat.cast_add, Nat.cast_one]
      rw [le_tdiv_twenty (by omega)]
      exact hnew
    · simp only [length_setSearchBarWidth, length_setFocusTypeAt, List.length_append,
        List.length_singleton, Nat.cast_add, Nat.cast_one]
      exact previewWidthUpdate_congr hpw rfl rfl rfl rfl

theorem closeFilePanel_coherent (m : model) (h : geometryCoherent m) :
    ∃ m', closeFilePanel m = some m' ∧ geometryCoherent m' := by
  obtain ⟨hv, hb, hmax, hst⟩ := h
  by_cases hone : m.fileModel.filePanels.length = 1
  · exact ⟨m, by simp [closeFilePanel, hone], hv, hb, hmax, hst⟩
  · obtain ⟨k, hk, hi⟩ := exists_nat_of_validFocusIndex hv
    obtain ⟨pw, hpw, h⟩ := closeFilePanel_spec m k hk hi hone
    have hlen : (m.fileModel.filePanels.eraseIdx k).length = m.fileModel.filePanels.length - 1 := by
      rw [List.length_eraseIdx, if_pos hk]
    have hcast : (m.fileModel.filePanels.length : Int)
        = ((m.fileModel.filePanels.eraseIdx k).length : Int) + 1 := by omega
    have hlen1 : (1 : Int) ≤ ((m.fileModel.filePanels.eraseIdx k).length : Int) := by omega
    rw [hcast] at hst hb
    have hroom : 20 * (((m.fileModel.filePanels.eraseIdx k).length : Int) + 1)
        ≤ m.fullWidth - m.Config.SidebarWidth - m.fileModel.filePreview.width := by
      rw [← le_tdiv_twenty (by omega), ← hmax]; exact hb
    have hnew := previewWidth_bound_close hlen1 hst hpw hroom
    refine ⟨_, h, ?_, ?_, rfl, ?_⟩
    · simp only [validFocusIndex, length_setSearchBarWidth, length_setFocusTypeAt]
      omega
    · simp only [length_setSearchBarWidth, length_setFocusTypeAt]
      rw [le_tdiv_twenty hlen1]
      exact hnew
    · simp only [length_setSearchBarWidth, length_setFocusTypeAt]
      exact previewWidthUpdate_congr hpw rfl rfl rfl rfl

theorem runOps_coherent (ops : List lifecycleOp) :
    ∀ m : model, (∀ op ∈ ops, op ≠ lifecycleOp.togglePreview) → geometryCoherent m →
      ∃ m', runOps ops m = some m' ∧ geometryCoherent m' := by
  induction ops with
  | nil => intro m _ h; exact ⟨m, rfl, h⟩
  | cons op ops ih =>
    intro m hops h
    have hstep : ∃ m1, op.run m = some m1 ∧ geometryCoherent m1 := by
      cases op with
      | create => exact createNewFilePanel_coherent m h
      | close => exact closeFilePanel_coherent m h
      | togglePreview => exact absurd rfl (hops _ (List.mem_cons_self _ _))
    obtain ⟨m1, h1, hc1⟩ := hstep
    obtain ⟨m', h', hc'⟩ := ih m1 (fun o ho => hops o (List.mem_cons_of_mem _ ho)) hc1
    exact ⟨m', by simp [runOps, h1, h'], hc'⟩

/-! ## C3: the bound on the panel count -/

/-- C3 (counterexample): four panels on a terminal of width 100 with a sidebar
of width 20 satisfy `1 ≤ 4 ≤ maxFilePanel = 80 / 20`; after the one-step
sequence `toggleFilePreviewPanel` there are still four panels but
`maxFilePanel` is `(80 - 13) / 20 = 3`. -/
theorem panelCount_bound_fails_after_toggle :
    (1 : Int) ≤ (fourPanels.fileModel.filePanels.length : Int) ∧
    (fourPanels.fileModel.filePanels.length : Int) ≤ fourPanels.fileModel.maxFilePanel ∧
    fourPanels.fileModel.maxFilePanel
      = Int.tdiv (fourPanels.fullWidth - fourPanels.Config.SidebarWidth
          - fourPanels.fileModel.filePreview.width) 20 ∧
    ∃ m', runOps [lifecycleOp.togglePreview] fourPanels = some m' ∧
      ¬ ((m'.fileModel.filePanels.length : Int) ≤ m'.fileModel.maxFilePanel) := by
  refine ⟨by decide, by decide, by decide, _, rfl, by decide⟩

/-- C3 (amended): from every state with a valid focus index, a panel count of
at most `maxFilePanel`, `maxFilePanel` equal to
`(fullWidth - SidebarWidth - previewWidth) / 20` and a stored preview width
equal to the one the handlers compute for the current panel count, every finite
sequence of `createNewFilePanel` and `closeFilePanel` (without
`toggleFilePreviewPanel`) runs to a state whose panel count is at most its
`maxFilePanel`. -/
theorem panelCount_bounded_create_close (m : model) (ops : List lifecycleOp)
    (hops : ∀ op ∈ ops, op ≠ lifecycleOp.togglePreview)
    (hv : validFocusIndex m)
    (hb : (m.fileModel.filePanels.length : Int) ≤ m.fileModel.maxFilePanel)
    (hmax : m.fileModel.maxFilePanel
      = Int.tdiv (m.fullWidth - m.Config.SidebarWidth - m.fileModel.filePreview.width) 20)
    (hst : previewWidthUpdate m (m.fileModel.filePanels.length : Int)
      = some m.fileModel.filePreview.width) :
    ∃ m', runOps ops m = some m' ∧
      (1 : Int) ≤ (m'.fileModel.filePanels.length : Int) ∧
      (m'.fileModel.filePanels.length : Int) ≤ m'.fileModel.maxFilePanel := by
  obtain ⟨m', h', hv', hb', -, -⟩ := runOps_coherent ops m hops ⟨hv, hb, hmax, hst⟩
  refine ⟨m', h', ?_, hb'⟩
  have := hv'.1; have := hv'.2; omega

/-- Witness of C3 (amended): open a panel, close it, open two more, starting
from three panels. -/
theorem panelCount_bounded_create_close_witness :
    validFocusIndex threePanels ∧
    ∃ m', runOps [lifecycleOp.create, lifecycleOp.close, lifecycleOp.create, lifecycleOp.create]
        threePanels = some m' ∧
      (1 : Int) ≤ (m'.fileModel.filePanels.length : Int) ∧
      (m'.fileModel.filePanels.length : Int) ≤ m'.fileModel.maxFilePanel :=
  ⟨by decide,
    panelCount_bounded_create_close threePanels
      [lifecycleOp.create, lifecycleOp.close, lifecycleOp.create, lifecycleOp.create]
      (by decide) (by decide) (by decide) (by decide) (by decide)⟩

/-! ## The recomputed geometry -/

theorem panelWidth_fill_bounds {X N : Int} (hN : 1 ≤ N) (hX : 20 * N ≤ X) :
    N * Int.tdiv (X - (4 + (N - 1) * 2)) N + (4 + 2 * (N - 1)) ≤ X ∧
    X < N * Int.tdiv (X - (4 + (N - 1) * 2)) N + (4 + 2 * (N - 1)) + N := by
  have hb := tdiv_bounds_of_nonneg (a := X - (4 + (N - 1) * 2)) (b := N) (by omega) (by omega)
  constructor <;> omega

/-- The state returned by one of the three geometry handlers when it
recomputes the geometry: the preview width `pw` computed for the new panel
count is stored, and the panel width, the maximal panel count and the search
bar widths are derived from it. -/
theorem geometry_recomputed (m : model) (hv : validFocusIndex m) :
    ((m.fileModel.filePanels.length : Int) ≠ m.fileModel.maxFilePanel →
      ∃ m' pw, createNewFilePanel m = some m' ∧
        m'.fileModel.filePanels.length = m.fileModel.filePanels.length + 1 ∧
        previewWidthUpdate m (m'.fileModel.filePanels.length : Int) = some pw ∧
        m'.fileModel.filePreview = { m.fileModel.filePreview with width := pw } ∧
        m'.fileModel.width = Int.tdiv (m.fullWidth - m.Config.SidebarWidth - pw
          - (4 + ((m'.fileModel.filePanels.length : Int) - 1) * 2))
          (m'.fileModel.filePanels.length : Int) ∧
        m'.fileModel.maxFilePanel = Int.tdiv (m.fullWidth - m.Config.SidebarWidth - pw) 20 ∧
        (∀ p ∈ m'.fileModel.filePanels, p.searchBar.Width = m'.fileModel.width - 4) ∧
        m'.fullWidth = m.fullWidth ∧ m'.Config = m.Config) ∧
    (m.fileModel.filePanels.length ≠ 1 →
      ∃ m' pw, closeFilePanel m = some m' ∧
        m'.fileModel.filePanels.length + 1 = m.fileModel.filePanels.length ∧
        previewWidthUpdate m (m'.fileModel.filePanels.length : Int) = some pw ∧
        m'.fileModel.filePreview = { m.fileModel.filePreview with width := pw } ∧
        m'.fileModel.width = Int.tdiv (m.fullWidth - m.Config.SidebarWidth - pw
          - (4 + ((m'.fileModel.filePanels.length : Int) - 1) * 2))
          (m'.fileModel.filePanels.length : Int) ∧
        m'.fileModel.maxFilePanel = Int.tdiv (m.fullWidth - m.Config.SidebarWidth - pw) 20 ∧
        (∀ p ∈ m'.fileModel.filePanels, p.searchBar.Width = m'.fileModel.width - 4) ∧
        m'.fullWidth = m.fullWidth ∧ m'.Config = m.Config) ∧
    (∃ m' pw, toggleFilePreviewPanel m = some m' ∧
        m'.fileModel.filePanels.length = m.fileModel.filePanels.length ∧
        previewWidthUpdate { m with
          fileModel := { m.fileModel with
            filePreview := { «open» := !m.fileModel.filePreview.open, width := 0 } } }
          (m'.fileModel.filePanels.length : Int) = some pw ∧
        m'.fileModel.filePreview = { «open» := !m.fileModel.filePreview.open, width := pw } ∧
        m'.fileModel.width = Int.tdiv (m.fullWidth - m.Config.SidebarWidth - pw
          - (4 + ((m'.fileModel.filePanels.length : Int) - 1) * 2))
          (m'.fileModel.filePanels.length : Int) ∧
        m'.fileModel.maxFilePanel = Int.tdiv (m.fullWidth - m.Config.SidebarWidth - pw) 20 ∧
        (∀ p ∈ m'.fileModel.filePanels, p.searchBar.Width = m'.fileModel.width - 4) ∧
        m'.fullWidth = m.fullWidth ∧ m'.Config = m.Config) := by
  obtain ⟨k, hk, hi⟩ := exists_nat_of_validFocusIndex hv
  refine ⟨fun hfull => ?_, fun hone => ?_, ?_⟩
  · obtain ⟨cur, pw, -, hpw, h⟩ := createNewFilePanel_spec m k hk hi hfull
    refine ⟨_, pw, h, ?_, ?_, rfl, ?_, rfl, ?_, rfl, rfl⟩
    · simp [length_setSearchBarWidth, length_setFocusTypeAt]
    · simpa [length_setSearchBarWidth, length_setFocusTypeAt] using hpw
    · simp [length_setSearchBarWidth, length_setFocusTypeAt]
    · intro p hp
      exact mem_setSearchBarWidth hp
  · obtain ⟨pw, hpw, h⟩ := closeFilePanel_spec m k hk hi hone
    have hlen : (m.fileModel.filePanels.eraseIdx k).length = m.fileModel.filePanels.length - 1 := by
      rw [List.length_eraseIdx, if_pos hk]
    refine ⟨_, pw, h, ?_, ?_, rfl, ?_, rfl, ?_, rfl, rfl⟩
    · simp only [length_setSearchBarWidth, length_setFocusTypeAt]
      omega
    · simpa [length_setSearchBarWidth, length_setFocusTypeAt] using hpw
    · simp [length_setSearchBarWidth, length_setFocusTypeAt]
    · intro p hp
      exact mem_setSearchBarWidth hp
  · obtain ⟨pw, hpw, h⟩ := toggleFilePreviewPanel_spec m (by omega)
    refine ⟨_, pw, h, ?_, ?_, rfl, ?_, rfl, ?_, rfl, rfl⟩
    · simp [length_setSearchBarWidth]
    · simpa [length_setSearchBarWidth] using hpw
    · simp [length_setSearchBarWidth]
    · intro p hp
      exact mem_setSearchBarWidth hp

theorem fill_of_recomputed {m' : model}
    (hN : (1 : Int) ≤ (m'.fileModel.filePanels.length : Int))
    (hw : m'.fileModel.width = Int.tdiv (m'.fullWidth - m'.Config.SidebarWidth
        - m'.fileModel.filePreview.width - (4 + ((m'.fileModel.filePanels.length : Int) - 1) * 2))
        (m'.fileModel.filePanels.length : Int))
    (hmax : m'.fileModel.maxFilePanel
      = Int.tdiv (m'.fullWidth - m'.Config.SidebarWidth - m'.fileModel.filePreview.width) 20)
    (hb : (m'.fileModel.filePanels.length : Int) ≤ m'.fileModel.maxFilePanel) :
    panelsFillUpToRounding m' := by
  rw [hmax, le_tdiv_twenty hN] at hb
  unfold panelsFillUpToRounding
  rw [hw]
  exact panelWidth_fill_bounds hN hb

theorem layoutPreviewWidth_of_update {m : model} {n pw : Int}
    (h : previewWidthUpdate m n = some pw) (hn : n + 1 ≠ 0)
    (hclosed : m.fileModel.filePreview.open = false → m.fileModel.filePreview.width = 0) :
    pw = layoutPreviewWidth m.fullWidth m.Config.SidebarWidth m.fileModel.filePreview.open
      m.Config.FilePreviewWidth n := by
  unfold layoutPreviewWidth
  rcases previewWidthUpdate_cases h hn with ⟨ho, e⟩ | ⟨ho, hd, e⟩ | ⟨ho, hd, e⟩
  · rw [if_pos ho, e, hclosed ho]
  · rw [if_neg (by simp [ho]), if_neg hd, e]
  · rw [if_neg (by simp [ho]), if_pos hd, e, mul_comm n 2]

theorem matches_of_recomputed {m0 m' : model} {pw : Int}
    (hpw : previewWidthUpdate m0 (m'.fileModel.filePanels.length : Int) = some pw)
    (hclosed : m0.fileModel.filePreview.open = false → m0.fileModel.filePreview.width = 0)
    (hpre : m'.fileModel.filePreview = { «open» := m0.fileModel.filePreview.open, width := pw })
    (hw : m'.fileModel.width = Int.tdiv (m0.fullWidth - m0.Config.SidebarWidth - pw
        - (4 + ((m'.fileModel.filePanels.length : Int) - 1) * 2))
        (m'.fileModel.filePanels.length : Int))
    (hmax : m'.fileModel.maxFilePanel
      = Int.tdiv (m0.fullWidth - m0.Config.SidebarWidth - pw) 20)
    (hsb : ∀ p ∈ m'.fileModel.filePanels, p.searchBar.Width = m'.fileModel.width - 4)
    (hW : m'.fullWidth = m0.fullWidth) (hC : m'.Config = m0.Config) :
    geometryMatchesLayout m' := by
  have e := layoutPreviewWidth_of_update hpw (by omega) hclosed
  refine ⟨?_, ?_, ?_, hsb⟩
  · rw [hpre, hW, hC]; exact e
  · rw [hw, hpre, hW, hC]
    simp only [layoutPanelWidth]
    rw [mul_comm _ (2 : Int)]
  · rw [hmax, hpre, hW, hC]
    rfl

/-! ## C4: the panels and their separators against the available width -/

/-- C4 (counterexample): `createNewFilePanel` on three panels (terminal width
100, sidebar 20, preview closed) yields four panels, `maxFilePanel = 4` and
panel width `(80 - 10) / 4 = 17`, and `4 * 17 + 10 = 78` is not `80`. -/
theorem panelWidth_sum_not_exact :
    validFocusIndex threePanels ∧
    ∃ m', createNewFilePanel threePanels = some m' ∧
      (1 : Int) ≤ (m'.fileModel.filePanels.length : Int) ∧
      (m'.fileModel.filePanels.length : Int) ≤ m'.fileModel.maxFilePanel ∧
      ¬ panelsFillExactly m' := by
  refine ⟨by decide, _, rfl, by decide, by decide, by decide⟩

/-- C4 (amended): for every state with a valid focus index, whenever
`createNewFilePanel` (panel count different from `maxFilePanel`),
`closeFilePanel` (more than one panel) or `toggleFilePreviewPanel` recomputes
the geometry and the resulting panel count `N` is at most the resulting
`maxFilePanel`, the panel width satisfies
`N * width + (4 + 2·(N-1)) ≤ W - S - previewWidth < N * width + (4 + 2·(N-1)) + N`:
the panels and their separators fit and leave fewer than `N` columns unused. -/
theorem panelWidth_sum_within_rounding (m : model) (hv : validFocusIndex m) :
    ((m.fileModel.filePanels.length : Int) ≠ m.fileModel.maxFilePanel →
      ∃ m', createNewFilePanel m = some m' ∧
        ((m'.fileModel.filePanels.length : Int) ≤ m'.fileModel.maxFilePanel →
          panelsFillUpToRounding m')) ∧
    (m.fileModel.filePanels.length ≠ 1 →
      ∃ m', closeFilePanel m = some m' ∧
        ((m'.fileModel.filePanels.length : Int) ≤ m'.fileModel.maxFilePanel →
          panelsFillUpToRounding m')) ∧
    (∃ m', toggleFilePreviewPanel m = some m' ∧
        ((m'.fileModel.filePanels.length : Int) ≤ m'.fileModel.maxFilePanel →
          panelsFillUpToRounding m')) := by
  obtain ⟨hcreate, hclose, htoggle⟩ := geometry_recomputed m hv
  have h0 := hv.1
  have h1 := hv.2
  refine ⟨fun hfull => ?_, fun hone => ?_, ?_⟩
  · obtain ⟨m', pw, h, hlen, -, hpre, hw, hmax, -, hW, hC⟩ := hcreate hfull
    refine ⟨m', h, fun hb => fill_of_recomputed (by omega) ?_ ?_ hb⟩
    · rw [hw, hpre, hW, hC]
    · rw [hmax, hpre, hW, hC]
  · obtain ⟨m', pw, h, hlen, -, hpre, hw, hmax, -, hW, hC⟩ := hclose hone
    refine ⟨m', h, fun hb => fill_of_recomputed (by omega) ?_ ?_ hb⟩
    · rw [hw, hpre, hW, hC]
    · rw [hmax, hpre, hW, hC]
  · obtain ⟨m', pw, h, hlen, -, hpre, hw, hmax, -, hW, hC⟩ := htoggle
    refine ⟨m', h, fun hb => fill_of_recomputed (by omega) ?_ ?_ hb⟩
    · rw [hw, hpre, hW, hC]
    · rw [hmax, hpre, hW, hC]

/-- Witness of C4 (amended) at `createNewFilePanel` on three panels: the
four resulting panels are within `maxFilePanel = 4`, and `4 * 17 + 10 = 78`
lies within 4 columns below `80`. -/
theorem panelWidth_sum_within_rounding_witness :
    validFocusIndex threePanels ∧
    (threePanels.fileModel.filePanels.length : Int) ≠ threePanels.fileModel.maxFilePanel ∧
    ∃ m', createNewFilePanel threePanels = some m' ∧
      (m'.fileModel.filePanels.length : Int) ≤ m'.fileModel.maxFilePanel ∧
      panelsFillUpToRounding m' := by
  refine ⟨by decide, by decide, ?_⟩
  obtain ⟨m', h, himp⟩ :=
    (panelWidth_sum_within_rounding threePanels (by decide)).1 (by decide)
  have hb : (createNewFilePanel threePanels).map
      (fun m => decide ((m.fileModel.filePanels.length : Int) ≤ m.fileModel.maxFilePanel))
      = some true := by decide
  rw [h] at hb
  have hb' : (m'.fileModel.filePanels.length : Int) ≤ m'.fileModel.maxFilePanel := by
    simpa using hb
  exact ⟨m', h, hb', himp hb'⟩

/-! ## C5: the stored geometry is the layout function -/

/-- C5: for every state with a valid focus index in which the stored preview
width is 0 whenever the preview is closed, after `createNewFilePanel` (panel
count different from, in particular below, `maxFilePanel`), after
`closeFilePanel` (at least two panels) and after `toggleFilePreviewPanel` the
stored preview width, panel width and `maxFilePanel` are the values of the
layout function at the resulting panel count and preview flag, and every
panel has `searchBar.Width = width - 4`. -/
theorem geometry_matches_layout (m : model) (hv : validFocusIndex m)
    (hclosed : m.fileModel.filePreview.open = false → m.fileModel.filePreview.width = 0) :
    ((m.fileModel.filePanels.length : Int) ≠ m.fileModel.maxFilePanel →
      ∃ m', createNewFilePanel m = some m' ∧
        m'.fileModel.filePanels.length = m.fileModel.filePanels.length + 1 ∧
        m'.fileModel.filePreview.open = m.fileModel.filePreview.open ∧
        geometryMatchesLayout m') ∧
    (2 ≤ m.fileModel.filePanels.length →
      ∃ m', closeFilePanel m = some m' ∧
        m'.fileModel.filePanels.length + 1 = m.fileModel.filePanels.length ∧
        m'.fileModel.filePreview.open = m.fileModel.filePreview.open ∧
        geometryMatchesLayout m') ∧
    (∃ m', toggleFilePreviewPanel m = some m' ∧
        m'.fileModel.filePanels.length = m.fileModel.filePanels.length ∧
        m'.fileModel.filePreview.open = (!m.fileModel.filePreview.open) ∧
        geometryMatchesLayout m') := by
  obtain ⟨hcreate, hclose, htoggle⟩ := geometry_recomputed m hv
  refine ⟨fun hfull => ?_, fun htwo => ?_, ?_⟩
  · obtain ⟨m', pw, h, hlen, hpw, hpre, hw, hmax, hsb, hW, hC⟩ := hcreate hfull
    exact ⟨m', h, hlen, by rw [hpre],
      matches_of_recomputed hpw hclosed hpre hw hmax hsb hW hC⟩
  · obtain ⟨m', pw, h, hlen, hpw, hpre, hw, hmax, hsb, hW, hC⟩ := hclose (by omega)
    exact ⟨m', h, hlen, by rw [hpre],
      matches_of_recomputed hpw hclosed hpre hw hmax hsb hW hC⟩
  · obtain ⟨m', pw, h, hlen, hpw, hpre, hw, hmax, hsb, hW, hC⟩ := htoggle
    exact ⟨m', h, hlen, by rw [hpre],
      matches_of_recomputed hpw (fun _ => rfl) hpre hw hmax hsb hW hC⟩

/-- Witness of C5 at `toggleFilePreviewPanel` on four panels. -/
theorem geometry_matches_layout_witness :
    validFocusIndex fourPanels ∧
    (fourPanels.fileModel.filePreview.open = false → fourPanels.fileModel.filePreview.width = 0) ∧
    ∃ m', toggleFilePreviewPanel fourPanels = some m' ∧
      m'.fileModel.filePanels.length = fourPanels.fileModel.filePanels.length ∧
      m'.fileModel.filePreview.open = (!fourPanels.fileModel.filePreview.open) ∧
      geometryMatchesLayout m' :=
  ⟨by decide, by decide, (geometry_matches_layout fourPanels (by decide) (by decide)).2.2⟩

/-! ## The primary focus type is held by at most one panel -/

theorem primaryCount_le_one_nat (ps : List filePanel) (k : Nat)
    (h : ∀ (j : Nat) (p : filePanel), ps[j]? = some p → j ≠ k →
      p.focusType ≠ filePanelFocusType.focus) :
    primaryCount ps ≤ 1 := by
  induction ps generalizing k with
  | nil => simp [primaryCount]
  | cons q qs ih =>
    have htail : ∀ (k' : Nat), (∀ (j : Nat) (p : filePanel), qs[j]? = some p → j ≠ k' →
        p.focusType ≠ filePanelFocusType.focus) → primaryCount qs ≤ 1 := fun k' hk' => ih k' hk'
    cases k with
    | zero =>
      have hzero : primaryCount qs = 0 := by
        unfold primaryCount
        rw [List.countP_eq_zero]
        intro p hp
        obtain ⟨j, hj⟩ := List.getElem?_of_mem hp
        have := h (j + 1) p (by simpa using hj) (by omega)
        simpa using this
      unfold primaryCount at hzero ⊢
      rw [List.countP_cons, hzero]
      split <;> omega
    | succ k =>
      have hq : q.focusType ≠ filePanelFocusType.focus := h 0 q (by simp) (by omega)
      have := htail k (fun j p hj hjk => h (j + 1) p (by simpa using hj) (by omega))
      unfold primaryCount at this ⊢
      rw [List.countP_cons]
      simp only [hq, decide_False, Bool.false_eq_true, if_false]
      omega

theorem primaryCount_le_one {ps : List filePanel} {k : Nat} (h : onlyPrimaryAt ps (k : Int)) :
    primaryCount ps ≤ 1 :=
  primaryCount_le_one_nat ps k (fun j p hj hjk => h j p hj (by omega))

theorem onlyPrimaryAt_setFocusTypeAt_same {ps : List filePanel} {k : Nat}
    (h : onlyPrimaryAt ps (k : Int)) (t : filePanelFocusType) :
    onlyPrimaryAt (setFocusTypeAt ps k t) (k : Int) := by
  intro j p hj hjk
  rw [getElem?_setFocusTypeAt, if_neg (by omega)] at hj
  exact h j p hj hjk

theorem onlyPrimaryAt_move {ps : List filePanel} {k : Nat} (h : onlyPrimaryAt ps (k : Int))
    (k' : Nat) (t : filePanelFocusType) :
    onlyPrimaryAt (setFocusTypeAt (setFocusTypeAt ps k filePanelFocusType.noneFocus) k' t)
      (k' : Int) := by
  intro j p hj hjk
  rw [getElem?_setFocusTypeAt, if_neg (by omega), getElem?_setFocusTypeAt] at hj
  by_cases hk : j = k
  · rw [if_pos hk] at hj
    simp only [Option.map_eq_some'] at hj
    obtain ⟨q, -, rfl⟩ := hj
    simp
  · rw [if_neg hk] at hj
    exact h j p hj (by omega)

theorem onlyPrimaryAt_setSearchBarWidth {ps : List filePanel} {k : Int}
    (h : onlyPrimaryAt ps k) (w : Int) : onlyPrimaryAt (setSearchBarWidth ps w) k := by
  intro j p hj hjk
  rw [getElem?_setSearchBarWidth] at hj
  simp only [Option.map_eq_some'] at hj
  obtain ⟨q, hq, rfl⟩ := hj
  exact h j q hq hjk

theorem onlyPrimaryAt_append_secondary {ps : List filePanel} {k : Int}
    (h : onlyPrimaryAt ps k) (q : filePanel)
    (hq : q.focusType ≠ filePanelFocusType.focus) : onlyPrimaryAt (ps ++ [q]) k := by
  intro j p hj hjk
  rcases Nat.lt_or_ge j ps.length with hlt | hge
  · rw [List.getElem?_append_left hlt] at hj
    exact h j p hj hjk
  · rw [List.getElem?_append_right hge] at hj
    have hp : p ∈ [q] := List.getElem?_mem hj
    rw [List.mem_singleton] at hp
    rw [hp]; exact hq

theorem noPrimary_eraseIdx {ps : List filePanel} {k : Nat} (h : onlyPrimaryAt ps (k : Int)) :
    ∀ (j : Nat) (p : filePanel), (ps.eraseIdx k)[j]? = some p →
      p.focusType ≠ filePanelFocusType.focus := by
  intro j p hj
  rw [List.getElem?_eraseIdx] at hj
  split at hj
  · exact h j p hj (by omega)
  · exact h (j + 1) p hj (by omega)

theorem onlyPrimaryAt_of_noPrimary {ps : List filePanel}
    (h : ∀ (j : Nat) (p : filePanel), ps[j]? = some p → p.focusType ≠ filePanelFocusType.focus)
    (k : Int) : onlyPrimaryAt ps k :=
  fun j p hj _ => h j p hj

theorem onlyPrimaryAt_preserved (m : model) (hv : validFocusIndex m)
    (h : onlyPrimaryAt m.fileModel.filePanels m.filePanelFocusIndex) :
    ∀ op ∈ [nextFilePanel, previousFilePanel, focusOnSideBar, focusOnProcessBar,
        focusOnMetadata, createNewFilePanel, closeFilePanel],
      ∃ (m' : model) (k' : Nat), op m = some m' ∧ m'.filePanelFocusIndex = (k' : Int) ∧
        onlyPrimaryAt m'.fileModel.filePanels (k' : Int) := by
  obtain ⟨k, hk, hi⟩ := exists_nat_of_validFocusIndex hv
  rw [hi] at h
  intro op hop
  simp only [List.mem_cons, List.mem_singleton, List.not_mem_nil, or_false] at hop
  rcases hop with rfl | rfl | rfl | rfl | rfl | rfl | rfl
  · obtain ⟨p, -, e⟩ := nextFilePanel_spec m k hk hi
    exact ⟨_, _, e, rfl, onlyPrimaryAt_move h _ _⟩
  · obtain ⟨p, -, e⟩ := previousFilePanel_spec m k hk hi
    exact ⟨_, _, e, rfl, onlyPrimaryAt_move h _ _⟩
  · by_cases hs : m.Config.SidebarWidth = 0
    · exact ⟨m, k, by simp [focusOnSideBar, hs], hi, h⟩
    · refine ⟨_, k, focusOnSideBar_spec m k hk hi hs, ?_, ?_⟩ <;> split <;>
        first | exact hi | exact onlyPrimaryAt_setFocusTypeAt_same h _
  · by_cases hs : m.toggleFooter = true
    · refine ⟨_, k, focusOnProcessBar_spec m k hk hi hs, ?_, ?_⟩ <;> split <;>
        first | exact hi | exact onlyPrimaryAt_setFocusTypeAt_same h _
    · exact ⟨m, k, by simp [focusOnProcessBar, hs], hi, h⟩
  · by_cases hs : m.toggleFooter = true
    · refine ⟨_, k, focusOnMetadata_spec m k hk hi hs, ?_, ?_⟩ <;> split <;>
        first | exact hi | exact onlyPrimaryAt_setFocusTypeAt_same h _
    · exact ⟨m, k, by simp [focusOnMetadata, hs], hi, h⟩
  · by_cases hfull : (m.fileModel.filePanels.length : Int) = m.fileModel.maxFilePanel
    · exact ⟨m, k, by simp [createNewFilePanel, hfull], hi, h⟩
    · obtain ⟨cur, pw, -, -, e⟩ := createNewFilePanel_spec m k hk hi hfull
      refine ⟨_, k + 1, e, by simp, ?_⟩
      exact onlyPrimaryAt_setSearchBarWidth
        (onlyPrimaryAt_move (onlyPrimaryAt_append_secondary h _ (by simp [newPanel])) _ _) _
  · by_cases hone : m.fileModel.filePanels.length = 1
    · exact ⟨m, k, by simp [closeFilePanel, hone], hi, h⟩
    · obtain ⟨pw, -, e⟩ := closeFilePanel_spec m k hk hi hone
      refine ⟨_, k - 1, e, rfl, ?_⟩
      exact onlyPrimaryAt_setSearchBarWidth
        (onlyPrimaryAt_setFocusTypeAt_same
          (onlyPrimaryAt_of_noPrimary (noPrimary_eraseIdx h) _) _) _

/-! ## C6: at most one panel with the primary focus type -/

/-- C6: from every state with a valid `filePanelFocusIndex` in which no panel
other than the one at `filePanelFocusIndex` has the primary focus type, each of
`nextFilePanel`, `previousFilePanel`, `focusOnSideBar`, `focusOnProcessBar`,
`focusOnMetadata`, `createNewFilePanel` and `closeFilePanel` returns a state in
which at most one panel has the primary focus type. -/
theorem at_most_one_primary_panel (m : model) (hv : validFocusIndex m)
    (h : onlyPrimaryAt m.fileModel.filePanels m.filePanelFocusIndex) :
    ∀ op ∈ [nextFilePanel, previousFilePanel, focusOnSideBar, focusOnProcessBar,
        focusOnMetadata, createNewFilePanel, closeFilePanel],
      ∃ m', op m = some m' ∧ primaryCount m'.fileModel.filePanels ≤ 1 := by
  intro op hop
  obtain ⟨m', k', e, -, hk'⟩ := onlyPrimaryAt_preserved m hv h op hop
  exact ⟨m', e, primaryCount_le_one hk'⟩

/-- Witness of C6 at `nextFilePanel` on three panels. -/
theorem at_most_one_primary_panel_witness :
    validFocusIndex threePanels ∧
    ∃ m', nextFilePanel threePanels = some m' ∧ primaryCount m'.fileModel.filePanels ≤ 1 :=
  ⟨by decide,
    at_most_one_primary_panel threePanels (by decide)
      (by
        intro j p hj hjk
        rcases j with _ | _ | _ | j
        · exact absurd rfl hjk
        · simp only [threePanels, sampleModel, List.getElem?_cons_succ, List.getElem?_cons_zero,
            Option.some.injEq] at hj
          subst hj; decide
        · simp only [threePanels, sampleModel, List.getElem?_cons_succ, List.getElem?_cons_zero,
            Option.some.injEq] at hj
          subst hj; decide
        · simp [threePanels, sampleModel] at hj)
      nextFilePanel (by simp)⟩

/-! ## C7: a full cycle of `nextFilePanel` -/

theorem iterate_nextFilePanel (n : Nat) :
    ∀ (m : model) (k : Nat), k < m.fileModel.filePanels.length →
      m.filePanelFocusIndex = (k : Int) →
      ∃ m', iterateHandler nextFilePanel n m = some m' ∧
        m'.filePanelFocusIndex = (((k + n) % m.fileModel.filePanels.length : Nat) : Int) ∧
        m'.fileModel.filePanels.length = m.fileModel.filePanels.length ∧
        m'.fileModel.width = m.fileModel.width ∧
        m'.fileModel.filePreview = m.fileModel.filePreview ∧
        m'.fileModel.maxFilePanel = m.fileModel.maxFilePanel := by
  induction n with
  | zero =>
    intro m k hk hi
    exact ⟨m, rfl, by rw [Nat.add_zero, Nat.mod_eq_of_lt hk]; exact hi, rfl, rfl, rfl, rfl⟩
  | succ n ih =>
    intro m k hk hi
    have hstep : ∃ m1, nextFilePanel m = some m1 ∧
        m1.filePanelFocusIndex
          = ((if k + 1 = m.fileModel.filePanels.length then 0 else k + 1 : Nat) : Int) ∧
        m1.fileModel.filePanels.length = m.fileModel.filePanels.length ∧
        m1.fileModel.width = m.fileModel.width ∧
        m1.fileModel.filePreview = m.fileModel.filePreview ∧
        m1.fileModel.maxFilePanel = m.fileModel.maxFilePanel := by
      obtain ⟨p, -, e⟩ := nextFilePanel_spec m k hk hi
      exact ⟨_, e, rfl, by simp [length_setFocusTypeAt], rfl, rfl, rfl⟩
    obtain ⟨m1, e, hi1, hl1, hw1, hp1, hmax1⟩ := hstep
    have hk1 : (if k + 1 = m.fileModel.filePanels.length then 0 else k + 1)
        < m.fileModel.filePanels.length := by split <;> omega
    obtain ⟨m', e', hidx, hlen, hw, hp, hmax⟩ := ih m1
      (if k + 1 = m.fileModel.filePanels.length then 0 else k + 1)
      (by rw [hl1]; exact hk1) hi1
    rw [hl1] at hidx hlen
    rw [hw1] at hw
    rw [hp1] at hp
    rw [hmax1] at hmax
    refine ⟨m', by simp [iterateHandler, e, e'], ?_, hlen, hw, hp, hmax⟩
    rw [hidx]
    congr 1
    by_cases hlast : k + 1 = m.fileModel.filePanels.length
    · rw [if_pos hlast, show k + (n + 1) = m.fileModel.filePanels.length + n by omega,
        Nat.add_mod_left, Nat.zero_add]
    · rw [if_neg hlast, show k + (n + 1) = k + 1 + n by omega]

/-- C7: for every `N` and every state with `N` panels and a valid
`filePanelFocusIndex` (so that `N ≥ 1`), applying `nextFilePanel` `N` times
returns a state with the original `filePanelFocusIndex` and with the panel
count, the panel width, the preview width and `maxFilePanel` unchanged. -/
theorem nextFilePanel_full_cycle (N : Nat) (m : model)
    (hlen : m.fileModel.filePanels.length = N) (hv : validFocusIndex m) :
    ∃ m', iterateHandler nextFilePanel N m = some m' ∧
      m'.filePanelFocusIndex = m.filePanelFocusIndex ∧
      m'.fileModel.filePanels.length = N ∧
      m'.fileModel.width = m.fileModel.width ∧
      m'.fileModel.filePreview.width = m.fileModel.filePreview.width ∧
      m'.fileModel.maxFilePanel = m.fileModel.maxFilePanel := by
  obtain ⟨k, hk, hi⟩ := exists_nat_of_validFocusIndex hv
  obtain ⟨m', e, hidx, hl, hw, hp, hmax⟩ := iterate_nextFilePanel N m k hk hi
  refine ⟨m', e, ?_, by rw [hl, hlen], hw, by rw [hp], hmax⟩
  rw [hidx, hi, hlen, Nat.add_mod_right, Nat.mod_eq_of_lt (by omega)]

/-- Witness of C7 on three panels. -/
theorem nextFilePanel_full_cycle_witness :
    validFocusIndex threePanels ∧
    ∃ m', iterateHandler nextFilePanel 3 threePanels = some m' ∧
      m'.filePanelFocusIndex = threePanels.filePanelFocusIndex ∧
      m'.fileModel.filePanels.length = 3 ∧
      m'.fileModel.width = threePanels.fileModel.width ∧
      m'.fileModel.filePreview.width = threePanels.fileModel.filePreview.width ∧
      m'.fileModel.maxFilePanel = threePanels.fileModel.maxFilePanel :=
  ⟨by decide, nextFilePanel_full_cycle 3 threePanels rfl (by decide)⟩

/-! ## C8: the focus toggles -/

/-- C8: in a state with a valid `filePanelFocusIndex`, each of
`focusOnProcessBar` and `focusOnMetadata` with the footer visible, and
`focusOnSideBar` with a non-zero sidebar width, applied while its target does
not hold the focus makes the target the focus owner and gives the panel at
`filePanelFocusIndex` the secondary focus type; applied again it makes
`nonePanelFocus` the focus owner and gives that panel the primary focus type;
`filePanelFocusIndex` is the same throughout. With the footer hidden
(respectively sidebar width 0) the handler returns the state unchanged. -/
theorem focus_toggle_round_trip (m : model) (hv : validFocusIndex m) :
    (m.toggleFooter = true → m.focusPanel ≠ focusPanelType.processBarFocus →
      ∃ m1 m2, focusOnProcessBar m = some m1 ∧
        m1.focusPanel = focusPanelType.processBarFocus ∧
        (index m1.fileModel.filePanels m1.filePanelFocusIndex).map (fun p => p.focusType)
          = some filePanelFocusType.secondFocus ∧
        m1.filePanelFocusIndex = m.filePanelFocusIndex ∧
        focusOnProcessBar m1 = some m2 ∧
        m2.focusPanel = focusPanelType.nonePanelFocus ∧
        (index m2.fileModel.filePanels m2.filePanelFocusIndex).map (fun p => p.focusType)
          = some filePanelFocusType.focus ∧
        m2.filePanelFocusIndex = m.filePanelFocusIndex) ∧
    (m.toggleFooter = true → m.focusPanel ≠ focusPanelType.metadataFocus →
      ∃ m1 m2, focusOnMetadata m = some m1 ∧
        m1.focusPanel = focusPanelType.metadataFocus ∧
        (index m1.fileModel.filePanels m1.filePanelFocusIndex).map (fun p => p.focusType)
          = some filePanelFocusType.secondFocus ∧
        m1.filePanelFocusIndex = m.filePanelFocusIndex ∧
        focusOnMetadata m1 = some m2 ∧
        m2.focusPanel = focusPanelType.nonePanelFocus ∧
        (index m2.fileModel.filePanels m2.filePanelFocusIndex).map (fun p => p.focusType)
          = some filePanelFocusType.focus ∧
        m2.filePanelFocusIndex = m.filePanelFocusIndex) ∧
    (m.Config.SidebarWidth ≠ 0 → m.focusPanel ≠ focusPanelType.sidebarFocus →
      ∃ m1 m2, focusOnSideBar m = some m1 ∧
        m1.focusPanel = focusPanelType.sidebarFocus ∧
        (index m1.fileModel.filePanels m1.filePanelFocusIndex).map (fun p => p.focusType)
          = some filePanelFocusType.secondFocus ∧
        m1.filePanelFocusIndex = m.filePanelFocusIndex ∧
        focusOnSideBar m1 = some m2 ∧
        m2.focusPanel = focusPanelType.nonePanelFocus ∧
        (index m2.fileModel.filePanels m2.filePanelFocusIndex).map (fun p => p.focusType)
          = some filePanelFocusType.focus ∧
        m2.filePanelFocusIndex = m.filePanelFocusIndex) ∧
    (m.toggleFooter = false → focusOnProcessBar m = some m ∧ focusOnMetadata m = some m) ∧
    (m.Config.SidebarWidth = 0 → focusOnSideBar m = some m) := by
  obtain ⟨k, hk, hi⟩ := exists_nat_of_validFocusIndex hv
  have hk1 : ∀ t, k < (setFocusTypeAt m.fileModel.filePanels k t).length := by
    intro t; rw [length_setFocusTypeAt]; exact hk
  refine ⟨fun hs hne => ?_, fun hs hne => ?_, fun hs hne => ?_, fun hs => ?_, fun hs => ?_⟩
  · have e1 := focusOnProcessBar_spec m k hk hi hs
    rw [if_neg hne] at e1
    have e2 := focusOnProcessBar_spec _ k (hk1 filePanelFocusType.secondFocus)
      (show ({ m with
          focusPanel := focusPanelType.processBarFocus
          fileModel := { m.fileModel with
            filePanels := setFocusTypeAt m.fileModel.filePanels k filePanelFocusType.secondFocus } }
          : model).filePanelFocusIndex = (k : Int) from hi) hs
    rw [if_pos rfl] at e2
    refine ⟨_, _, e1, rfl, ?_, rfl, e2, rfl, ?_, rfl⟩
    · show (index (setFocusTypeAt _ k _) m.filePanelFocusIndex).map _ = _
      rw [hi]; exact focusType_setFocusTypeAt _ _ _ hk
    · show (index (setFocusTypeAt _ k _) m.filePanelFocusIndex).map _ = _
      rw [hi]; exact focusType_setFocusTypeAt _ _ _ (hk1 _)
  · have e1 := focusOnMetadata_spec m k hk hi hs
    rw [if_neg hne] at e1
    have e2 := focusOnMetadata_spec _ k (hk1 filePanelFocusType.secondFocus)
      (show ({ m with
          focusPanel := focusPanelType.metadataFocus
          fileModel := { m.fileModel with
            filePanels := setFocusTypeAt m.fileModel.filePanels k filePanelFocusType.secondFocus } }
          : model).filePanelFocusIndex = (k : Int) from hi) hs
    rw [if_pos rfl] at e2
    refine ⟨_, _, e1, rfl, ?_, rfl, e2, rfl, ?_, rfl⟩
    · show (index (setFocusTypeAt _ k _) m.filePanelFocusIndex).map _ = _
      rw [hi]; exact focusType_setFocusTypeAt _ _ _ hk
    · show (index (setFocusTypeAt _ k _) m.filePanelFocusIndex).map _ = _
      rw [hi]; exact focusType_setFocusTypeAt _ _ _ (hk1 _)
  · have e1 := focusOnSideBar_spec m k hk hi hs
    rw [if_neg hne] at e1
    have e2 := focusOnSideBar_spec _ k (hk1 filePanelFocusType.secondFocus)
      (show ({ m with
          focusPanel := focusPanelType.sidebarFocus
          fileModel := { m.fileModel with
            filePanels := setFocusTypeAt m.fileModel.filePanels k filePanelFocusType.secondFocus } }
          : model).filePanelFocusIndex = (k : Int) from hi) hs
    rw [if_pos rfl] at e2
    refine ⟨_, _, e1, rfl, ?_, rfl, e2, rfl, ?_, rfl⟩
    · show (index (setFocusTypeAt _ k _) m.filePanelFocusIndex).map _ = _
      rw [hi]; exact focusType_setFocusTypeAt _ _ _ hk
    · show (index (setFocusTypeAt _ k _) m.filePanelFocusIndex).map _ = _
      rw [hi]; exact focusType_setFocusTypeAt _ _ _ (hk1 _)
  · simp [focusOnProcessBar, focusOnMetadata, hs]
  · simp [focusOnSideBar, hs]

/-- Witness of C8 at `focusOnProcessBar` on three panels. -/
theorem focus_toggle_round_trip_witness :
    validFocusIndex threePanels ∧ threePanels.toggleFooter = true ∧
    threePanels.focusPanel ≠ focusPanelType.processBarFocus ∧
    ∃ m1 m2, focusOnProcessBar threePanels = some m1 ∧
      m1.focusPanel = focusPanelType.processBarFocus ∧
      (index m1.fileModel.filePanels m1.filePanelFocusIndex).map (fun p => p.focusType)
        = some filePanelFocusType.secondFocus ∧
      m1.filePanelFocusIndex = threePanels.filePanelFocusIndex ∧
      focusOnProcessBar m1 = some m2 ∧
      m2.focusPanel = focusPanelType.nonePanelFocus ∧
      (index m2.fileModel.filePanels m2.filePanelFocusIndex).map (fun p => p.focusType)
        = some filePanelFocusType.focus ∧
      m2.filePanelFocusIndex = threePanels.filePanelFocusIndex :=
  ⟨by decide, rfl, by decide,
    (focus_toggle_round_trip threePanels (by decide)).1 rfl (by decide)⟩

/-! ## C9: the command line after `enterCommandLine` -/

theorem enterCommandLine_of_failed_command (env : commandLineEnv) (m : model)
    (h : ∀ name args dir, (env.CombinedOutput name args dir).2 = false) :
    enterCommandLine env m = some (m, ["command failed (see superfile.log)"]) := by
  unfold enterCommandLine
  simp only []
  split <;> simp [h]

/-- C9 (code evaluated at a failing input): with the command line open, the
text `nosuchcommand` typed and a shell on which the command fails,
`enterCommandLine` prints the failure message and returns the state as it
was: the input still holds the typed text, is still focused, and
`footerHeight` is not raised back. -/
theorem enterCommandLine_failure_leaves_modal_open :
    ∃ m', enterCommandLine failingShell (commandLineTyped "nosuchcommand")
        = some (m', ["command failed (see superfile.log)"]) ∧
      m'.commandLine.input.value = "nosuchcommand" ∧
      m'.commandLine.input.focus = true ∧
      m'.footerHeight = (commandLineTyped "nosuchcommand").footerHeight ∧
      m'.footerHeight + 1 = threePanels.footerHeight ∧
      ¬ commandLineClosed m' := by
  refine ⟨commandLineTyped "nosuchcommand",
    enterCommandLine_of_failed_command failingShell _ (fun _ _ _ => rfl),
    rfl, rfl, rfl, by decide, by decide⟩

/-! ## C10: the typing modal after `createItem` -/

/-- C10 (counterexample): with `notes.txt` typed into the create-item prompt
and a filesystem on which every call succeeds, the state after `createItem`
has the prompt closed and un-focused but its text input still holds
`notes.txt`. -/
theorem createItem_keeps_typed_value :
    ¬ ((createItem workingFs (typingModalTyped "notes.txt")).1.typingModal.open = false ∧
      (createItem workingFs (typingModalTyped "notes.txt")).1.typingModal.textInput.focus = false ∧
      (createItem workingFs (typingModalTyped "notes.txt")).1.typingModal.textInput.value = "") := by
  decide

/-- C10 (amended): for every typed value and every outcome of the filesystem
calls, after `createItem` the typing modal is closed (`open` is false) and its
text input is un-focused; the text input's value is left as it was typed, and
the rest of the state is unchanged. -/
theorem createItem_resets_typing_modal (env : createItemEnv) (m : model) :
    (createItem env m).1.typingModal.open = false ∧
    (createItem env m).1.typingModal.textInput.focus = false ∧
    (createItem env m).1.typingModal.textInput.value = m.typingModal.textInput.value ∧
    (createItem env m).1 = resetTypingModal m := by
  have h : (createItem env m).1 = resetTypingModal m := by
    unfold createItem
    simp only []
    split_ifs <;> rfl
  rw [h]
  exact ⟨rfl, rfl, rfl, rfl⟩

/-! ## C16: closing the last panel -/

/-- C16: in every state with exactly one panel, `closeFilePanel` returns the
state unchanged: the panel list, `filePanelFocusIndex`, the focus type of the
panel and every geometry field are as before. -/
theorem closeFilePanel_single_panel (m : model) (h : m.fileModel.filePanels.length = 1) :
    closeFilePanel m = some m := by
  simp [closeFilePanel, h]

/-- Witness of C16 on a single panel. -/
theorem closeFilePanel_single_panel_witness :
    onePanel.fileModel.filePanels.length = 1 ∧ closeFilePanel onePanel = some onePanel :=
  ⟨rfl, closeFilePanel_single_panel onePanel rfl⟩

/-! ## C17: creating a panel at the maximum -/

/-- C17: in every state whose panel count equals `maxFilePanel`,
`createNewFilePanel` returns the state unchanged: the panel list,
`filePanelFocusIndex`, every focus type and every geometry field are as
before. -/
theorem createNewFilePanel_at_max (m : model)
    (h : (m.fileModel.filePanels.length : Int) = m.fileModel.maxFilePanel) :
    createNewFilePanel m = some m := by
  simp [createNewFilePanel, h]

/-- Witness of C17 on four panels with `maxFilePanel = 4`. -/
theorem createNewFilePanel_at_max_witness :
    (fourPanels.fileModel.filePanels.length : Int) = fourPanels.fileModel.maxFilePanel ∧
    createNewFilePanel fourPanels = some fourPanels :=
  ⟨by decide, createNewFilePanel_at_max fourPanels (by decide)⟩

/-! ## C18: closing the focused panel -/

theorem map_location_setFocusTypeAt (ps : List filePanel) (k : Nat) (t : filePanelFocusType) :
    (setFocusTypeAt ps k t).map (fun p => p.location) = ps.map (fun p => p.location) := by
  induction ps generalizing k with
  | nil => simp [setFocusTypeAt]
  | cons p ps ih => cases k <;> simp [setFocusTypeAt, ih]

theorem map_location_setSearchBarWidth (ps : List filePanel) (w : Int) :
    (setSearchBarWidth ps w).map (fun p => p.location) = ps.map (fun p => p.location) := by
  simp [setSearchBarWidth]

theorem map_eraseIdx_location (ps : List filePanel) (k : Nat) :
    (ps.eraseIdx k).map (fun p => p.location) = (ps.map (fun p => p.location)).eraseIdx k := by
  induction ps generalizing k with
  | nil => simp
  | cons p ps ih => cases k <;> simp [ih]

theorem focusType_setSearchBarWidth_setFocusTypeAt (ps : List filePanel) (k : Nat)
    (t : filePanelFocusType) (w : Int) (hk : k < ps.length) :
    (index (setSearchBarWidth (setFocusTypeAt ps k t) w) (k : Int)).map (fun p => p.focusType)
      = some t := by
  rw [index_natCast, getElem?_setSearchBarWidth, getElem?_setFocusTypeAt, if_pos rfl,
    List.getElem?_eq_getElem hk]
  rfl

/-- C18: in every state with `n ≥ 2` panels and a valid `filePanelFocusIndex`
`i`, `closeFilePanel` removes exactly the panel at index `i`: the result has
`n - 1` panels whose locations are the original locations with position `i`
deleted and the order otherwise kept; the new `filePanelFocusIndex` is `i - 1`
if `i > 0` and `0` if `i = 0`; and the panel at the new index has the focus type
of the active focus target. -/
theorem closeFilePanel_removes_focused (m : model) (hn : 2 ≤ m.fileModel.filePanels.length)
    (hv : validFocusIndex m) :
    ∃ m', closeFilePanel m = some m' ∧
      m'.fileModel.filePanels.length = m.fileModel.filePanels.length - 1 ∧
      m'.fileModel.filePanels.map (fun p => p.location)
        = (m.fileModel.filePanels.map (fun p => p.location)).eraseIdx
            m.filePanelFocusIndex.toNat ∧
      m'.filePanelFocusIndex
        = (if m.filePanelFocusIndex > 0 then m.filePanelFocusIndex - 1 else 0) ∧
      (index m'.fileModel.filePanels m'.filePanelFocusIndex).map (fun p => p.focusType)
        = some (returnFocusType m.focusPanel) := by
  obtain ⟨k, hk, hi⟩ := exists_nat_of_validFocusIndex hv
  obtain ⟨pw, -, e⟩ := closeFilePanel_spec m k hk hi (by omega)
  have hlen : (m.fileModel.filePanels.eraseIdx k).length = m.fileModel.filePanels.length - 1 := by
    rw [List.length_eraseIdx, if_pos hk]
  have hto : m.filePanelFocusIndex.toNat = k := by omega
  refine ⟨_, e, ?_, ?_, ?_, ?_⟩
  · simp only [length_setSearchBarWidth, length_setFocusTypeAt, hlen]
  · simp only [map_location_setSearchBarWidth, map_location_setFocusTypeAt,
      map_eraseIdx_location, hto]
  · show ((k - 1 : Nat) : Int) = _
    rw [hi]
    split <;> omega
  · exact focusType_setSearchBarWidth_setFocusTypeAt _ _ _ _ (by omega)

/-- Witness of C18 on three panels with the first one focused. -/
theorem closeFilePanel_removes_focused_witness :
    2 ≤ threePanels.fileModel.filePanels.length ∧ validFocusIndex threePanels ∧
    ∃ m', closeFilePanel threePanels = some m' ∧
      m'.fileModel.filePanels.length = threePanels.fileModel.filePanels.length - 1 ∧
      m'.fileModel.filePanels.map (fun p => p.location)
        = (threePanels.fileModel.filePanels.map (fun p => p.location)).eraseIdx
            threePanels.filePanelFocusIndex.toNat ∧
      m'.filePanelFocusIndex
        = (if threePanels.filePanelFocusIndex > 0 then threePanels.filePanelFocusIndex - 1
            else 0) ∧
      (index m'.fileModel.filePanels m'.filePanelFocusIndex).map (fun p => p.focusType)
        = some (returnFocusType threePanels.focusPanel) :=
  ⟨by decide, by decide, closeFilePanel_removes_focused threePanels (by decide) (by decide)⟩

/-! ## C20: the focus owner and the focused panel agree -/

theorem focusAgrees_of_focusType {m : model}
    (h : (index m.fileModel.filePanels m.filePanelFocusIndex).map (fun p => p.focusType)
      = some (returnFocusType m.focusPanel)) : focusAgrees m := by
  simp only [Option.map_eq_some'] at h
  obtain ⟨p, hp, hf⟩ := h
  refine ⟨p, hp, fun hnone => ?_, fun hother => ?_⟩
  · rw [hf, returnFocusType, if_pos hnone]
  · rw [hf, returnFocusType, if_neg hother]

theorem focusAgrees_preserved (m : model) (hv : validFocusIndex m) (h : focusAgrees m) :
    ∀ op ∈ [nextFilePanel, previousFilePanel, focusOnSideBar, focusOnProcessBar,
        focusOnMetadata, createNewFilePanel, closeFilePanel],
      ∃ m', op m = some m' ∧ focusAgrees m' := by
  obtain ⟨k, hk, hi⟩ := exists_nat_of_validFocusIndex hv
  have hset : ∀ t, k < (setFocusTypeAt m.fileModel.filePanels k t).length := by
    intro t; rw [length_setFocusTypeAt]; exact hk
  intro op hop
  simp only [List.mem_cons, List.mem_singleton, List.not_mem_nil, or_false] at hop
  rcases hop with rfl | rfl | rfl | rfl | rfl | rfl | rfl
  · obtain ⟨p, -, e⟩ := nextFilePanel_spec m k hk hi
    refine ⟨_, e, focusAgrees_of_focusType ?_⟩
    exact focusType_setFocusTypeAt _ _ _
      (by rw [length_setFocusTypeAt]; split <;> omega)
  · obtain ⟨p, -, e⟩ := previousFilePanel_spec m k hk hi
    refine ⟨_, e, focusAgrees_of_focusType ?_⟩
    exact focusType_setFocusTypeAt _ _ _
      (by rw [length_setFocusTypeAt]; split <;> omega)
  · by_cases hs : m.Config.SidebarWidth = 0
    · exact ⟨m, by simp [focusOnSideBar, hs], h⟩
    · refine ⟨_, focusOnSideBar_spec m k hk hi hs, ?_⟩
      split <;> refine focusAgrees_of_focusType ?_ <;>
        (show (index (setFocusTypeAt _ k _) m.filePanelFocusIndex).map _ = _
         rw [hi]; exact focusType_setFocusTypeAt _ _ _ hk)
  · by_cases hs : m.toggleFooter = true
    · refine ⟨_, focusOnProcessBar_spec m k hk hi hs, ?_⟩
      split <;> refine focusAgrees_of_focusType ?_ <;>
        (show (index (setFocusTypeAt _ k _) m.filePanelFocusIndex).map _ = _
         rw [hi]; exact focusType_setFocusTypeAt _ _ _ hk)
    · exact ⟨m, by simp [focusOnProcessBar, hs], h⟩
  · by_cases hs : m.toggleFooter = true
    · refine ⟨_, focusOnMetadata_spec m k hk hi hs, ?_⟩
      split <;> refine focusAgrees_of_focusType ?_ <;>
        (show (index (setFocusTypeAt _ k _) m.filePanelFocusIndex).map _ = _
         rw [hi]; exact focusType_setFocusTypeAt _ _ _ hk)
    · exact ⟨m, by simp [focusOnMetadata, hs], h⟩
  · by_cases hfull : (m.fileModel.filePanels.length : Int) = m.fileModel.maxFilePanel
    · exact ⟨m, by simp [createNewFilePanel, hfull], h⟩
    · obtain ⟨cur, pw, -, -, e⟩ := createNewFilePanel_spec m k hk hi hfull
      refine ⟨_, e, focusAgrees_of_focusType ?_⟩
      show (index _ ((k : Int) + 1)).map _ = _
      rw [show ((k : Int) + 1) = ((k + 1 : Nat) : Int) by push_cast; rfl]
      exact focusType_setSearchBarWidth_setFocusTypeAt _ _ _ _
        (by rw [length_setFocusTypeAt, List.length_append, List.length_singleton]; omega)
  · by_cases hone : m.fileModel.filePanels.length = 1
    · exact ⟨m, by simp [closeFilePanel, hone], h⟩
    · obtain ⟨pw, -, e⟩ := closeFilePanel_spec m k hk hi hone
      refine ⟨_, e, focusAgrees_of_focusType ?_⟩
      exact focusType_setSearchBarWidth_setFocusTypeAt _ _ _ _
        (by rw [List.length_eraseIdx, if_pos hk]; omega)

/-- C20: with `returnFocusType` mapping `nonePanelFocus` to the primary focus
type and every other target to the secondary one, from every state with a
valid `filePanelFocusIndex` in which the panel at `filePanelFocusIndex` is
primary exactly when `focusPanel` is `nonePanelFocus` and secondary otherwise,
each of `nextFilePanel`, `previousFilePanel`, `focusOnSideBar`,
`focusOnProcessBar`, `focusOnMetadata`, `createNewFilePanel` and
`closeFilePanel` returns a state in which the same relation holds. -/
theorem focus_owner_agrees_with_panel (m : model) (hv : validFocusIndex m)
    (h : focusAgrees m) :
    ∀ op ∈ [nextFilePanel, previousFilePanel, focusOnSideBar, focusOnProcessBar,
        focusOnMetadata, createNewFilePanel, closeFilePanel],
      ∃ m', op m = some m' ∧ focusAgrees m' :=
  focusAgrees_preserved m hv h

/-- Witness of C20 at `focusOnSideBar` on three panels. -/
theorem focus_owner_agrees_with_panel_witness :
    validFocusIndex threePanels ∧ focusAgrees threePanels ∧
    ∃ m', focusOnSideBar threePanels = some m' ∧ focusAgrees m' :=
  ⟨by decide, ⟨_, rfl, fun _ => rfl, fun hne => absurd rfl hne⟩,
    focus_owner_agrees_with_panel threePanels (by decide)
      ⟨_, rfl, fun _ => rfl, fun hne => absurd rfl hne⟩ focusOnSideBar (by simp)⟩

/-! ## The focused panel under an update -/

theorem updateFocusedPanel_spec (m : model) (f : filePanel → filePanel)
    (hv : validFocusIndex m) :
    ∃ p m', focusedPanel m = some p ∧ updateFocusedPanel m f = some m' ∧
      focusedPanel m' = some (f p) ∧ validFocusIndex m' ∧
      m'.filePanelFocusIndex = m.filePanelFocusIndex ∧
      m'.fileModel.filePanels.length = m.fileModel.filePanels.length := by
  obtain ⟨k, hk, hi⟩ := exists_nat_of_validFocusIndex hv
  have hp : index m.fileModel.filePanels m.filePanelFocusIndex
      = some (m.fileModel.filePanels[k]) := by
    rw [hi, index_natCast, List.getElem?_eq_getElem hk]
  refine ⟨m.fileModel.filePanels[k],
    { m with
      fileModel := { m.fileModel with
        filePanels := m.fileModel.filePanels.set m.filePanelFocusIndex.toNat
          (f m.fileModel.filePanels[k]) } },
    hp, by simp only [updateFocusedPanel, hp], ?_, ?_, rfl, ?_⟩
  · show index (m.fileModel.filePanels.set m.filePanelFocusIndex.toNat _) m.filePanelFocusIndex
      = _
    rw [hi, index_natCast, Int.toNat_ofNat, List.getElem?_set_eq_of_lt _ hk]
  · simp only [validFocusIndex, List.length_set]
    exact hv
  · simp

theorem updateFocusedPanel_of_focused (m : model) (f : filePanel → filePanel)
    (hv : validFocusIndex m) (p : filePanel) (hp : focusedPanel m = some p) :
    ∃ m', updateFocusedPanel m f = some m' ∧ focusedPanel m' = some (f p) ∧
      validFocusIndex m' := by
  obtain ⟨q, m', hq, e, hf, hv', -, -⟩ := updateFocusedPanel_spec m f hv
  rw [hp] at hq
  cases hq
  exact ⟨m', e, hf, hv'⟩

/-! ## C14: the cursor of the sort-options menu -/

/-- C14: for every state with a valid focus index whose focused panel has an
option list of size `k ≥ 1` and a sort-options cursor `c` in `[0, k-1]`:
`sortOptionsListUp` sets the cursor to `k-1` at `c = 0` and to `c-1` otherwise,
`sortOptionsListDown` sets it to `0` at `c = k-1` and to `c+1` otherwise, both
results lie in `[0, k-1]`, and `sortOptionsListDown` after `sortOptionsListUp`
gives `c` back. -/
theorem sortOptions_cursor_wraps (m : model) (p : filePanel) (hv : validFocusIndex m)
    (hp : focusedPanel m = some p) (hk : 1 ≤ p.sortOptions.data.options.length)
    (hc0 : 0 ≤ p.sortOptions.cursor)
    (hc1 : p.sortOptions.cursor < (p.sortOptions.data.options.length : Int)) :
    ∃ mu md mud pu pd pud,
      sortOptionsListUp m = some mu ∧ focusedPanel mu = some pu ∧
      pu.sortOptions.cursor
        = (if p.sortOptions.cursor = 0 then (p.sortOptions.data.options.length : Int) - 1
            else p.sortOptions.cursor - 1) ∧
      0 ≤ pu.sortOptions.cursor ∧
      pu.sortOptions.cursor < (p.sortOptions.data.options.length : Int) ∧
      sortOptionsListDown m = some md ∧ focusedPanel md = some pd ∧
      pd.sortOptions.cursor
        = (if p.sortOptions.cursor = (p.sortOptions.data.options.length : Int) - 1 then 0
            else p.sortOptions.cursor + 1) ∧
      0 ≤ pd.sortOptions.cursor ∧
      pd.sortOptions.cursor < (p.sortOptions.data.options.length : Int) ∧
      sortOptionsListDown mu = some mud ∧ focusedPanel mud = some pud ∧
      pud.sortOptions.cursor = p.sortOptions.cursor := by
  obtain ⟨mu, eu, hu, hvu⟩ := updateFocusedPanel_of_focused m
    (fun panel =>
      if panel.sortOptions.cursor > 0 then
        { panel with
          sortOptions := { panel.sortOptions with cursor := panel.sortOptions.cursor - 1 } }
      else
        { panel with
          sortOptions := { panel.sortOptions with
            cursor := (panel.sortOptions.data.options.length : Int) - 1 } }) hv p hp
  obtain ⟨md, ed, hd, -⟩ := updateFocusedPanel_of_focused m
    (fun panel =>
      if panel.sortOptions.cursor < (panel.sortOptions.data.options.length : Int) - 1 then
        { panel with
          sortOptions := { panel.sortOptions with cursor := panel.sortOptions.cursor + 1 } }
      else
        { panel with sortOptions := { panel.sortOptions with cursor := 0 } }) hv p hp
  obtain ⟨mud, eud, hud, -⟩ := updateFocusedPanel_of_focused mu
    (fun panel =>
      if panel.sortOptions.cursor < (panel.sortOptions.data.options.length : Int) - 1 then
        { panel with
          sortOptions := { panel.sortOptions with cursor := panel.sortOptions.cursor + 1 } }
      else
        { panel with sortOptions := { panel.sortOptions with cursor := 0 } }) hvu _ hu
  refine ⟨mu, md, mud, _, _, _, eu, hu, ?_, ?_, ?_, ed, hd, ?_, ?_, ?_, eud, hud, ?_⟩
  · by_cases h0 : p.sortOptions.cursor = 0
    · rw [if_pos h0, if_neg (by omega)]
    · rw [if_neg h0, if_pos (by omega)]
  · by_cases h0 : p.sortOptions.cursor > 0
    · rw [if_pos h0]; show 0 ≤ p.sortOptions.cursor - 1; omega
    · rw [if_neg h0]; show 0 ≤ (p.sortOptions.data.options.length : Int) - 1; omega
  · by_cases h0 : p.sortOptions.cursor > 0
    · rw [if_pos h0]; show p.sortOptions.cursor - 1 < _; omega
    · rw [if_neg h0]
      show (p.sortOptions.data.options.length : Int) - 1 < _; omega
  · by_cases h0 : p.sortOptions.cursor = (p.sortOptions.data.options.length : Int) - 1
    · rw [if_pos h0, if_neg (by omega)]
    · rw [if_neg h0, if_pos (by omega)]
  · by_cases h0 : p.sortOptions.cursor < (p.sortOptions.data.options.length : Int) - 1
    · rw [if_pos h0]; show 0 ≤ p.sortOptions.cursor + 1; omega
    · rw [if_neg h0]
  · by_cases h0 : p.sortOptions.cursor < (p.sortOptions.data.options.length : Int) - 1
    · rw [if_pos h0]; show p.sortOptions.cursor + 1 < _; omega
    · rw [if_neg h0]; show (0 : Int) < _; omega
  · by_cases h0 : p.sortOptions.cursor > 0
    · simp only [if_pos h0]
      rw [if_pos (by show p.sortOptions.cursor - 1 < _; omega)]
      show p.sortOptions.cursor - 1 + 1 = _
      omega
    · simp only [if_neg h0]
      rw [if_neg (by show ¬ ((p.sortOptions.data.options.length : Int) - 1 < _); omega)]
      show (0 : Int) = _
      omega

/-- Witness of C14 on three panels, whose focused panel has three options and
the cursor on the first. -/
theorem sortOptions_cursor_wraps_witness :
    validFocusIndex threePanels ∧
    focusedPanel threePanels = some (samplePanel "/a" filePanelFocusType.focus) ∧
    ∃ mu md mud pu pd pud,
      sortOptionsListUp threePanels = some mu ∧ focusedPanel mu = some pu ∧
      pu.sortOptions.cursor = 2 ∧
      0 ≤ pu.sortOptions.cursor ∧ pu.sortOptions.cursor < 3 ∧
      sortOptionsListDown threePanels = some md ∧ focusedPanel md = some pd ∧
      pd.sortOptions.cursor = 1 ∧
      0 ≤ pd.sortOptions.cursor ∧ pd.sortOptions.cursor < 3 ∧
      sortOptionsListDown mu = some mud ∧ focusedPanel mud = some pud ∧
      pud.sortOptions.cursor = 0 :=
  ⟨by decide, rfl,
    sortOptions_cursor_wraps threePanels (samplePanel "/a" filePanelFocusType.focus)
      (by decide) rfl (by decide) (by decide) (by decide)⟩

/-! ## C15: cancelling the sort-options menu -/

theorem runSortMenuOps_selected (ops : List sortMenuOp) :
    ∀ (m : model) (p : filePanel), validFocusIndex m → focusedPanel m = some p →
      ∃ m' p', runSortMenuOps ops m = some m' ∧ validFocusIndex m' ∧
        focusedPanel m' = some p' ∧
        p'.sortOptions.data.selected = p.sortOptions.data.selected := by
  induction ops with
  | nil => intro m p hv hp; exact ⟨m, p, rfl, hv, hp, rfl⟩
  | cons op ops ih =>
    intro m p hv hp
    have hstep : ∃ m1 p1, op.run m = some m1 ∧ validFocusIndex m1 ∧
        focusedPanel m1 = some p1 ∧
        p1.sortOptions.data.selected = p.sortOptions.data.selected := by
      cases op with
      | listUp =>
        obtain ⟨m1, e, hf, hv1⟩ := updateFocusedPanel_of_focused m _ hv p hp
        refine ⟨m1, _, e, hv1, hf, ?_⟩
        split <;> rfl
      | listDown =>
        obtain ⟨m1, e, hf, hv1⟩ := updateFocusedPanel_of_focused m _ hv p hp
        refine ⟨m1, _, e, hv1, hf, ?_⟩
        split <;> rfl
      | toggleReverse =>
        obtain ⟨m1, e, hf, hv1⟩ := updateFocusedPanel_of_focused m _ hv p hp
        exact ⟨m1, _, e, hv1, hf, rfl⟩
    obtain ⟨m1, p1, e1, hv1, hp1, hs1⟩ := hstep
    obtain ⟨m', p', e', hv', hp', hs'⟩ := ih m1 p1 hv1 hp1
    exact ⟨m', p', by simp [runSortMenuOps, e1, e'], hv', hp', hs'.trans hs1⟩

/-- C15: for every state with a valid focus index, with focused panel `p`, and
every finite sequence of `sortOptionsListUp`, `sortOptionsListDown` and
`toggleReverseSort` applied after `openSortOptionsMenu`, `cancelSortOptions`
leaves `data.selected` at the value it had before the menu was opened, sets
the cursor to that value and sets `open` to false, whereas
`confirmSortOptions` sets `data.selected` to the cursor reached and `open` to
false. -/
theorem cancelSortOptions_discards_navigation (m : model) (p : filePanel)
    (ops : List sortMenuOp) (hv : validFocusIndex m) (hp : focusedPanel m = some p) :
    ∃ m1 m2 p2 mc pc mk pk,
      openSortOptionsMenu m = some m1 ∧
      runSortMenuOps ops m1 = some m2 ∧ focusedPanel m2 = some p2 ∧
      cancelSortOptions m2 = some mc ∧ focusedPanel mc = some pc ∧
      pc.sortOptions.data.selected = p.sortOptions.data.selected ∧
      pc.sortOptions.cursor = p.sortOptions.data.selected ∧
      pc.sortOptions.open = false ∧
      confirmSortOptions m2 = some mk ∧ focusedPanel mk = some pk ∧
      pk.sortOptions.data.selected = p2.sortOptions.cursor ∧
      pk.sortOptions.open = false := by
  obtain ⟨m1, e1, hf1, hv1⟩ := updateFocusedPanel_of_focused m
    (fun panel => { panel with sortOptions := { panel.sortOptions with «open» := true } })
    hv p hp
  obtain ⟨m2, p2, e2, hv2, hp2, hs2⟩ := runSortMenuOps_selected ops m1 _ hv1 hf1
  obtain ⟨mc, ec, hfc, -⟩ := updateFocusedPanel_of_focused m2
    (fun panel =>
      { panel with
        sortOptions := { panel.sortOptions with
          cursor := panel.sortOptions.data.selected
          «open» := false } }) hv2 p2 hp2
  obtain ⟨mk, ek, hfk, -⟩ := updateFocusedPanel_of_focused m2
    (fun panel =>
      { panel with
        sortOptions := { panel.sortOptions with
          data := { panel.sortOptions.data with selected := panel.sortOptions.cursor }
          «open» := false } }) hv2 p2 hp2
  exact ⟨m1, m2, p2, mc, _, mk, _, e1, e2, hp2, ec, hfc, hs2, hs2, rfl, ek, hfk, rfl, rfl⟩

/-- Witness of C15 on three panels: up, reverse, down, down after opening. -/
theorem cancelSortOptions_discards_navigation_witness :
    validFocusIndex threePanels ∧
    ∃ m1 m2 p2 mc pc mk pk,
      openSortOptionsMenu threePanels = some m1 ∧
      runSortMenuOps [sortMenuOp.listUp, sortMenuOp.toggleReverse, sortMenuOp.listDown,
        sortMenuOp.listDown] m1 = some m2 ∧ focusedPanel m2 = some p2 ∧
      cancelSortOptions m2 = some mc ∧ focusedPanel mc = some pc ∧
      pc.sortOptions.data.selected = 0 ∧
      pc.sortOptions.cursor = 0 ∧
      pc.sortOptions.open = false ∧
      confirmSortOptions m2 = some mk ∧ focusedPanel mk = some pk ∧
      pk.sortOptions.data.selected = p2.sortOptions.cursor ∧
      pk.sortOptions.open = false :=
  ⟨by decide,
    cancelSortOptions_discards_navigation threePanels
      (samplePanel "/a" filePanelFocusType.focus) _ (by decide) rfl⟩

/-! ## The help-menu handlers, step by step -/

theorem index_some_of_bounds {α : Type} (xs : List α) (i : Int) (h0 : 0 ≤ i)
    (h1 : i < (xs.length : Int)) : ∃ x, index xs i = some x ∧ xs[i.toNat]? = some x := by
  have hlt : i.toNat < xs.length := by omega
  refine ⟨xs[i.toNat], ?_, List.getElem?_eq_getElem hlt⟩
  simp only [index, if_pos h0, List.get?_eq_getElem?]
  exact List.getElem?_eq_getElem hlt

theorem helpMenuListUp_step (m : model) (e : helpMenuModalData)
    (hc : m.helpMenu.cursor > 1) (he : index m.helpMenu.data (m.helpMenu.cursor - 1) = some e) :
    helpMenuListUp m = some { m with
      helpMenu := { m.helpMenu with
        cursor := if e.subTitle ≠ "" then m.helpMenu.cursor - 1 - 1 else m.helpMenu.cursor - 1
        renderIndex :=
          if m.helpMenu.cursor - 1 < m.helpMenu.renderIndex then
            (if e.subTitle ≠ "" then m.helpMenu.renderIndex - 1 - 1
              else m.helpMenu.renderIndex - 1)
          else m.helpMenu.renderIndex } } := by
  simp only [helpMenuListUp, if_pos hc, he, Option.bind_eq_bind, Option.some_bind, Option.pure_def]
  by_cases h1 : m.helpMenu.cursor - 1 < m.helpMenu.renderIndex <;>
    by_cases h2 : e.subTitle = "" <;> simp [h1, h2]

theorem helpMenuListUp_wrap (m : model) (hc : ¬ m.helpMenu.cursor > 1) :
    helpMenuListUp m = some { m with
      helpMenu := { m.helpMenu with
        cursor := (m.helpMenu.data.length : Int) - 1
        renderIndex := (m.helpMenu.data.length : Int) - m.helpMenu.height } } := by
  simp only [helpMenuListUp, if_neg hc]

theorem helpMenuListDown_step (m : model) (e : helpMenuModalData)
    (hc : m.helpMenu.cursor < (m.helpMenu.data.length : Int) - 1)
    (he : index m.helpMenu.data (m.helpMenu.cursor + 1) = some e) :
    helpMenuListDown m = some { m with
      helpMenu := { m.helpMenu with
        cursor := if e.subTitle ≠ "" then m.helpMenu.cursor + 1 + 1 else m.helpMenu.cursor + 1
        renderIndex :=
          if m.helpMenu.cursor + 1 > m.helpMenu.renderIndex + m.helpMenu.height - 1 then
            (if e.subTitle ≠ "" then m.helpMenu.renderIndex + 1 + 1
              else m.helpMenu.renderIndex + 1)
          else m.helpMenu.renderIndex } } := by
  have hlen : m.helpMenu.data.length ≠ 0 := by
    intro h0
    rw [List.length_eq_zero.mp h0] at he
    simp [index] at he
  simp only [helpMenuListDown, if_neg hlen, if_pos hc, he, Option.bind_eq_bind,
    Option.some_bind, Option.pure_def]
  by_cases h1 : m.helpMenu.cursor + 1 > m.helpMenu.renderIndex + m.helpMenu.height - 1 <;>
    by_cases h2 : e.subTitle = "" <;> simp [h1, h2]

theorem helpMenuListDown_wrap (m : model) (hlen : m.helpMenu.data.length ≠ 0)
    (hc : ¬ m.helpMenu.cursor < (m.helpMenu.data.length : Int) - 1) :
    helpMenuListDown m = some { m with
      helpMenu := { m.helpMenu with cursor := 1, renderIndex := 0 } } := by
  simp only [helpMenuListDown, if_neg hlen, if_neg hc]

/-! ## C11: the help-menu scenario -/

/-- C11 (counterexample): with height 5, eight rows of which only row 3 has a
sub-title, cursor 2 and render index 0 (cursor 2 is visible),
`helpMenuListDown` leaves the cursor at 4 but the render index at 0, not at
`0 + 2`. -/
theorem helpMenuListDown_scenario_keeps_renderIndex :
    helpCursorVisible (helpState 5 rowsTitleAt3 2 0) ∧
    ∃ m', helpMenuListDown (helpState 5 rowsTitleAt3 2 0) = some m' ∧
      m'.helpMenu.cursor = 4 ∧
      m'.helpMenu.renderIndex = 0 ∧
      m'.helpMenu.renderIndex ≠ (helpState 5 rowsTitleAt3 2 0).helpMenu.renderIndex + 2 := by
  refine ⟨by decide, _, rfl, rfl, rfl, by decide⟩

/-- C11 (amended): with height 5, a list of eight rows of which only the row
at index 3 has a non-empty sub-title, cursor 2 and a render index under which
cursor 2 is visible, `helpMenuListDown` leaves the cursor at 4; the render
index is unchanged whenever row 3 is inside the viewport (render index at
least -1, in particular every non-negative render index) and is advanced by 2
only when cursor 2 was the last visible row (render index -2). -/
theorem helpMenuListDown_scenario (m : model) (hh : m.helpMenu.height = 5)
    (hlen : m.helpMenu.data.length = 8)
    (hsub : ∀ (i : Nat) (e : helpMenuModalData), m.helpMenu.data[i]? = some e →
      (e.subTitle ≠ "" ↔ i = 3))
    (hc : m.helpMenu.cursor = 2) (hvis : helpCursorVisible m) :
    ∃ m', helpMenuListDown m = some m' ∧
      m'.helpMenu.cursor = 4 ∧
      m'.helpMenu.renderIndex
        = (if m.helpMenu.renderIndex = -2 then m.helpMenu.renderIndex + 2
            else m.helpMenu.renderIndex) := by
  obtain ⟨e, he, he'⟩ := index_some_of_bounds m.helpMenu.data (m.helpMenu.cursor + 1)
    (by omega) (by omega)
  have hsubE : e.subTitle ≠ "" := by
    rw [hc] at he'
    exact (hsub 3 e he').mpr rfl
  have hstep := helpMenuListDown_step m e (by omega) he
  obtain ⟨hv1, hv2⟩ := hvis
  refine ⟨_, hstep, ?_, ?_⟩
  · show (if e.subTitle ≠ "" then m.helpMenu.cursor + 1 + 1 else m.helpMenu.cursor + 1) = 4
    rw [if_pos hsubE, hc]; rfl
  · show (if m.helpMenu.cursor + 1 > m.helpMenu.renderIndex + m.helpMenu.height - 1 then
        (if e.subTitle ≠ "" then m.helpMenu.renderIndex + 1 + 1
          else m.helpMenu.renderIndex + 1)
        else m.helpMenu.renderIndex) = _
    rw [if_pos hsubE]
    by_cases hr : m.helpMenu.renderIndex = -2
    · rw [if_pos hr, if_pos (by omega)]; omega
    · rw [if_neg hr, if_neg (by omega)]

/-- Witness of C11 (amended) at render index 1. -/
theorem helpMenuListDown_scenario_witness :
    helpCursorVisible (helpState 5 rowsTitleAt3 2 1) ∧
    ∃ m', helpMenuListDown (helpState 5 rowsTitleAt3 2 1) = some m' ∧
      m'.helpMenu.cursor = 4 ∧
      m'.helpMenu.renderIndex = 1 :=
  ⟨by decide,
    helpMenuListDown_scenario (helpState 5 rowsTitleAt3 2 1) rfl rfl
      (by
        intro i e hi
        rcases i with _ | _ | _ | _ | _ | _ | _ | _ | i <;>
          simp [helpState, rowsTitleAt3, helpRow, helpTitle] at hi <;>
          subst hi <;> simp)
      rfl (by decide)⟩

/-! ## C12: the cursor and the viewport of the help menu -/

/-- C12 (code evaluated at failing inputs): with height 5 and sub-titles at
rows 0 and 4, from cursor 3 and render index 0 (cursor visible in `[0, 4]`)
`helpMenuListDown` steps to row 4, which is still inside the viewport, skips it
as a sub-title row and leaves the cursor at 5 with the render index still 0;
from cursor 5 and render index 4 `helpMenuListUp` likewise leaves the cursor
at 3 with the render index still 4. In both results the cursor is outside
`[renderIndex, renderIndex + height - 1]`. -/
theorem helpMenu_cursor_leaves_viewport :
    (helpCursorValid (helpState 5 rowsTitleAt0And4 3 0) ∧
      helpCursorVisible (helpState 5 rowsTitleAt0And4 3 0) ∧
      ∃ m', helpMenuListDown (helpState 5 rowsTitleAt0And4 3 0) = some m' ∧
        m'.helpMenu.cursor = 5 ∧ m'.helpMenu.renderIndex = 0 ∧ ¬ helpCursorVisible m') ∧
    (helpCursorValid (helpState 5 rowsTitleAt0And4 5 4) ∧
      helpCursorVisible (helpState 5 rowsTitleAt0And4 5 4) ∧
      ∃ m', helpMenuListUp (helpState 5 rowsTitleAt0And4 5 4) = some m' ∧
        m'.helpMenu.cursor = 3 ∧ m'.helpMenu.renderIndex = 4 ∧ ¬ helpCursorVisible m') := by
  refine ⟨⟨by decide, by decide, _, rfl, rfl, rfl, by decide⟩,
    ⟨by decide, by decide, _, rfl, rfl, rfl, by decide⟩⟩

/-! ## C13: index 0 of the help menu -/

/-- C13 (counterexample): the claim ranges over every help-menu list; on the
list whose row at index 1 has a sub-title, with the cursor on the valid index
2, `helpMenuListUp` steps to row 1, skips it as a sub-title row and leaves the
cursor at 0. -/
theorem helpMenuListUp_reaches_index_zero :
    helpCursorValid (helpState 5 rowsTitleAt1 2 0) ∧
    helpCursorVisible (helpState 5 rowsTitleAt1 2 0) ∧
    ∃ m', helpMenuListUp (helpState 5 rowsTitleAt1 2 0) = some m' ∧
      m'.helpMenu.cursor = 0 := by
  refine ⟨by decide, by decide, _, rfl, rfl⟩

/-- C13 (amended): for every help-menu list whose row at index 1 has no
sub-title (row 1 is the first row the cursor can rest on: the handlers wrap to
cursor 1 and guard on `cursor > 1`) and every cursor that is a valid index of
at least 1, after `helpMenuListUp` and after `helpMenuListDown` the cursor is
at least 1, so it is not 0. -/
theorem helpMenu_cursor_ge_one_of_plain_row_one (m : model) (hcur : helpCursorValid m)
    (hrow1 : ∀ e : helpMenuModalData, m.helpMenu.data[1]? = some e → e.subTitle = "") :
    (∃ m', helpMenuListUp m = some m' ∧ 1 ≤ m'.helpMenu.cursor ∧ m'.helpMenu.cursor ≠ 0) ∧
    (∃ m', helpMenuListDown m = some m' ∧ 1 ≤ m'.helpMenu.cursor ∧ m'.helpMenu.cursor ≠ 0) := by
  obtain ⟨hc1, hc2⟩ := hcur
  constructor
  · by_cases hgt : m.helpMenu.cursor > 1
    · obtain ⟨e, he, he'⟩ := index_some_of_bounds m.helpMenu.data (m.helpMenu.cursor - 1)
        (by omega) (by omega)
      have hge : 1 ≤ (if e.subTitle ≠ "" then m.helpMenu.cursor - 1 - 1
          else m.helpMenu.cursor - 1) := by
        by_cases hs : e.subTitle = ""
        · rw [if_neg (by simpa using hs)]; omega
        · rw [if_pos hs]
          have hne : m.helpMenu.cursor - 1 ≠ 1 := by
            intro h1
            rw [h1] at he'
            exact hs (hrow1 e he')
          omega
      exact ⟨_, helpMenuListUp_step m e hgt he, hge, by
        show (if e.subTitle ≠ "" then m.helpMenu.cursor - 1 - 1
          else m.helpMenu.cursor - 1) ≠ 0
        omega⟩
    · refine ⟨_, helpMenuListUp_wrap m hgt, ?_, ?_⟩
      · show 1 ≤ (m.helpMenu.data.length : Int) - 1
        omega
      · show (m.helpMenu.data.length : Int) - 1 ≠ 0
        omega
  · by_cases hlt : m.helpMenu.cursor < (m.helpMenu.data.length : Int) - 1
    · obtain ⟨e, he, -⟩ := index_some_of_bounds m.helpMenu.data (m.helpMenu.cursor + 1)
        (by omega) (by omega)
      have hge : 1 ≤ (if e.subTitle ≠ "" then m.helpMenu.cursor + 1 + 1
          else m.helpMenu.cursor + 1) := by
        split <;> omega
      exact ⟨_, helpMenuListDown_step m e hlt he, hge, by
        show (if e.subTitle ≠ "" then m.helpMenu.cursor + 1 + 1
          else m.helpMenu.cursor + 1) ≠ 0
        omega⟩
    · refine ⟨_, helpMenuListDown_wrap m (by omega) hlt, ?_, ?_⟩
      · show (1 : Int) ≤ 1
        omega
      · show (1 : Int) ≠ 0
        omega

/-- Witness of C13 (amended): sub-titles at rows 0 and 4, a plain row 1 and
the cursor at 2. -/
theorem helpMenu_cursor_ge_one_of_plain_row_one_witness :
    helpCursorValid (helpState 5 rowsTitleAt0And4 2 0) ∧
    ((helpState 5 rowsTitleAt0And4 2 0).helpMenu.data[1]?).map (fun e => e.subTitle)
      = some "" ∧
    (∃ m', helpMenuListUp (helpState 5 rowsTitleAt0And4 2 0) = some m' ∧
      1 ≤ m'.helpMenu.cursor ∧ m'.helpMenu.cursor ≠ 0) ∧
    (∃ m', helpMenuListDown (helpState 5 rowsTitleAt0And4 2 0) = some m' ∧
      1 ≤ m'.helpMenu.cursor ∧ m'.helpMenu.cursor ≠ 0) :=
  ⟨by decide, rfl,
    helpMenu_cursor_ge_one_of_plain_row_one (helpState 5 rowsTitleAt0And4 2 0) (by decide)
      (by
        intro e he
        simp [helpState, rowsTitleAt0And4, helpRow] at he
        subst he; rfl)⟩

/-! ## The range loop of `pinnedDirectory` -/

/-- The loop passes over `k` entries that do not match without changing its
state. -/
theorem pinLoop_skip (L : String) (k : Nat) :
    ∀ (steps i : Nat) (arr : List directory) (len : Nat) (u : Bool),
      (∀ d ∈ (arr.drop i).take k, d.location ≠ L) → i + k ≤ arr.length →
      pinLoop L (k + steps) i arr len u = pinLoop L steps (i + k) arr len u := by
  induction k with
  | zero => intro steps i arr len u _ _; simp
  | succ k ih =>
    intro steps i arr len u hno hlen
    have hi : i < arr.length := by omega
    have hdrop : arr.drop i = arr[i] :: arr.drop (i + 1) := by
      rw [List.drop_eq_getElem_cons hi]
    have hhead : arr[i].location ≠ L := by
      apply hno
      rw [hdrop, List.take_succ_cons]
      exact List.mem_cons_self _ _
    have htail : ∀ d ∈ (arr.drop (i + 1)).take k, d.location ≠ L := by
      intro d hd
      apply hno
      rw [hdrop, List.take_succ_cons]
      exact List.mem_cons_of_mem _ hd
    rw [show k + 1 + steps = (k + steps) + 1 by omega]
    simp only [pinLoop, List.getElem?_eq_getElem hi, if_neg hhead]
    rw [ih steps (i + 1) arr len u htail (by omega)]
    congr 1
    omega

theorem removeInPlace_append (A B : List directory) (d : directory) :
    removeInPlace (A ++ d :: B) (A ++ d :: B).length A.length
      = A ++ B ++ (d :: B).drop B.length := by
  simp only [removeInPlace, List.length_append, List.length_cons]
  have h1 : (A ++ d :: B).take A.length = A := by simp
  have h2 : (A ++ d :: B).drop (A.length + 1) = B := by
    rw [show A.length + 1 = A.length + 1 from rfl, ← List.drop_drop]
    simp
  have h3 : (A ++ d :: B).drop (A.length + (B.length + 1) - 1) = (d :: B).drop B.length := by
    rw [show A.length + (B.length + 1) - 1 = A.length + B.length by omega, ← List.drop_drop]
    simp
  rw [h1, h2, h3]
  congr 2
  rw [show A.length + (B.length + 1) - (A.length + 1) = B.length by omega]
  simp

/-- The loop on a list whose only entry at `L` is `d`: the entry is removed in
place, the slice is one shorter and the flag is set. -/
theorem pinLoop_of_unique (L : String) (A B : List directory) (d : directory)
    (hd : d.location = L) (hA : ∀ x ∈ A, x.location ≠ L) (hB : ∀ x ∈ B, x.location ≠ L) :
    pinLoop L (A ++ d :: B).length 0 (A ++ d :: B) (A ++ d :: B).length false
      = some (A ++ B ++ (d :: B).drop B.length, (A ++ d :: B).length - 1, true) := by
  have hlen : (A ++ d :: B).length = A.length + (1 + B.length) := by
    simp only [List.length_append, List.length_cons]; omega
  have hskipA := pinLoop_skip L A.length (1 + B.length) 0 (A ++ d :: B)
    (A ++ d :: B).length false
    (by
      intro x hx
      apply hA
      simpa using hx)
    (by rw [hlen]; omega)
  rw [hlen] at hskipA ⊢
  rw [hskipA, Nat.zero_add, show 1 + B.length = B.length + 1 by omega]
  have hget : (A ++ d :: B)[A.length]? = some d := by
    rw [List.getElem?_append_right (Nat.le_refl _), Nat.sub_self, List.getElem?_cons_zero]
  have hrm := removeInPlace_append A B d
  rw [hlen, show 1 + B.length = B.length + 1 by omega] at hrm
  simp only [pinLoop, hget, hd, if_true, if_pos (show A.length + 1 ≤ A.length + (B.length + 1) by omega),
    hrm]
  have hskipB := pinLoop_skip L B.length 0 (A.length + 1) (A ++ B ++ (d :: B).drop B.length)
    (A.length + (B.length + 1) - 1) true
    (by
      intro x hx
      apply hB
      cases B with
      | nil => simp at hx
      | cons b B' =>
        have hx' := List.mem_of_mem_take hx
        rw [List.append_assoc, List.drop_append] at hx'
        simp only [List.length_cons, List.drop_succ_cons, List.cons_append, List.drop_zero,
          List.mem_append] at hx'
        rcases hx' with h | h
        · exact List.mem_cons_of_mem _ h
        · exact List.mem_of_mem_drop h)
    (by
      simp only [List.length_append, List.length_drop, List.length_cons]
      omega)
  rw [Nat.add_zero] at hskipB
  rw [hskipB]
  simp [pinLoop]

theorem set_of_getElem? {α : Type} (xs : List α) (k : Nat) (x : α) (h : xs[k]? = some x) :
    xs.set k x = xs := by
  induction xs generalizing k with
  | nil => simp
  | cons y ys ih =>
    cases k with
    | zero =>
      simp only [List.getElem?_cons_zero, Option.some.injEq] at h
      rw [List.set_cons_zero, h]
    | succ k =>
      simp only [List.getElem?_cons_succ] at h
      rw [List.set_cons_succ, ih k h]

/-- The state and the written list of `pinnedDirectory` in terms of the loop
result. -/
theorem pinnedDirectory_of_loop (dirs : List directory) (Base : String → String) (m : model)
    (panel : filePanel) (hv : validFocusIndex m) (hp : focusedPanel m = some panel)
    (arr : List directory) (len : Nat) (u : Bool)
    (hloop : pinLoop panel.location dirs.length 0 dirs dirs.length false = some (arr, len, u)) :
    pinnedDirectory dirs Base m = some (m,
      (if !u then arr.take len ++ [{ location := panel.location, name := Base panel.location }]
        else arr.take len).map toPinnedDir) := by
  obtain ⟨k, hk, hi⟩ := exists_nat_of_validFocusIndex hv
  have hp' : index m.fileModel.filePanels m.filePanelFocusIndex = some panel := hp
  have hget : m.fileModel.filePanels[k]? = some panel := by
    rw [← index_natCast, ← hi]; exact hp'
  have hset : m.fileModel.filePanels.set m.filePanelFocusIndex.toNat panel
      = m.fileModel.filePanels := by
    rw [hi, Int.toNat_ofNat]
    exact set_of_getElem? _ _ _ hget
  simp only [pinnedDirectory, hp', hloop, Option.bind_eq_bind, Option.some_bind, hset]

/-! ## C19: pinning and unpinning the focused directory -/

/-- C19: for every pinned list with pairwise distinct locations and every
state with a valid focus index whose focused panel is at location `L`:
if the entry at some position `i` has location exactly `L`, the list that
`pinnedDirectory` serialises and writes back is the original list with that
entry removed and all other entries in their original order; if no entry has
location `L`, it is the original list followed by the one entry
`{location: L, name: Base(L)}`. The state is returned unchanged. -/
theorem pinnedDirectory_toggles_membership (dirs : List directory) (Base : String → String)
    (m : model) (panel : filePanel) (hv : validFocusIndex m)
    (hp : focusedPanel m = some panel)
    (hnd : (dirs.map (fun d => d.location)).Nodup) :
    (∀ (i : Nat) (d : directory), dirs[i]? = some d → d.location = panel.location →
      pinnedDirectory dirs Base m = some (m, (dirs.eraseIdx i).map toPinnedDir)) ∧
    ((∀ d ∈ dirs, d.location ≠ panel.location) →
      pinnedDirectory dirs Base m = some (m,
        (dirs ++ [({ location := panel.location, name := Base panel.location } : directory)]).map
          toPinnedDir)) := by
  constructor
  · intro i d hid hd
    have hi : i < dirs.length := by
      by_contra hge
      rw [List.getElem?_eq_none (by omega)] at hid
      cases hid
    have hdi : dirs[i] = d := by
      rw [List.getElem?_eq_getElem hi] at hid
      exact Option.some.inj hid
    have hsplit : dirs = dirs.take i ++ d :: dirs.drop (i + 1) := by
      rw [← hdi, ← List.drop_eq_getElem_cons hi, List.take_append_drop]
    have hnd' := hnd
    rw [hsplit, List.map_append, List.map_cons, List.nodup_middle, List.nodup_cons] at hnd'
    have hnot := hnd'.1
    have hA : ∀ x ∈ dirs.take i, x.location ≠ panel.location := by
      intro x hx hxl
      apply hnot
      rw [hd, ← hxl]
      exact List.mem_append_left _ (List.mem_map_of_mem _ hx)
    have hB : ∀ x ∈ dirs.drop (i + 1), x.location ≠ panel.location := by
      intro x hx hxl
      apply hnot
      rw [hd, ← hxl]
      exact List.mem_append_right _ (List.mem_map_of_mem _ hx)
    have hloop := pinLoop_of_unique panel.location (dirs.take i) (dirs.drop (i + 1)) d hd hA hB
    rw [← hsplit] at hloop
    rw [pinnedDirectory_of_loop dirs Base m panel hv hp _ _ _ hloop]
    have htake : (dirs.take i ++ dirs.drop (i + 1)
        ++ (d :: dirs.drop (i + 1)).drop (dirs.drop (i + 1)).length).take (dirs.length - 1)
        = dirs.eraseIdx i := by
      rw [List.eraseIdx_eq_take_drop_succ]
      apply List.take_left'
      simp only [List.length_append, List.length_take, List.length_drop]
      omega
    simp only [Bool.not_true, Bool.false_eq_true, if_false, htake]
  · intro hno
    have hloop : pinLoop panel.location dirs.length 0 dirs dirs.length false
        = some (dirs, dirs.length, false) := by
      have := pinLoop_skip panel.location dirs.length 0 0 dirs dirs.length false
        (by
          intro x hx
          exact hno x (List.mem_of_mem_drop (List.mem_of_mem_take hx)))
        (by omega)
      rw [Nat.add_zero, Nat.zero_add] at this
      rw [this]
      rfl
    rw [pinnedDirectory_of_loop dirs Base m panel hv hp _ _ _ hloop]
    simp

/-- Witness of C19: the focused panel of three panels is at `/a`, which is
the second of three pinned directories. -/
theorem pinnedDirectory_toggles_membership_witness :
    validFocusIndex threePanels ∧
    (pinnedThree.map (fun d => d.location)).Nodup ∧
    pinnedDirectory pinnedThree lastElement threePanels
      = some (threePanels, (pinnedThree.eraseIdx 1).map toPinnedDir) :=
  ⟨by decide, by decide,
    (pinnedDirectory_toggles_membership pinnedThree lastElement threePanels
      (samplePanel "/a" filePanelFocusType.focus) (by decide) rfl (by decide)).1
      1 { location := "/a", name := "a" } rfl rfl⟩

end Superfile
